import Mathlib

/-!
Stop-Attractiveness-Scoring: weight splitter, heatmap colour mapping, data selector

A shallow embedding of the arithmetic in `attractiveness.js` (class
`WeightSplitterBar`, `AttractivenessScorerUI.compute`), `heatmap.js`
(`clamp01`, `yellowToRed`, `computeMinMax`, `norm`) and `data-selector.js`
(`DataSelector.displayCurrentPage`, `DataSelector.validateDateRange`).

JavaScript numbers are IEEE 754 binary64 values.  A finite double is modelled by the rational
it denotes (`ℚ`), and every arithmetic operation of the source (`+`, `-`, `*`, `/`, and a
decimal literal such as `0.02`) is the exact operation followed by `fl`, rounding to the
nearest double with ties to even.  `Math.min`, `Math.max`, `Math.abs`, `Math.round` and the
comparisons are exact.  Signed zeros are not distinguished.  Where a result can be `NaN` or
`±Infinity` for the inputs a claim ranges over (`computeMinMax`, `norm`), numbers are modelled
by `JsNumber`, which adds these three values; the other functions are modelled for finite
inputs, where their operands are too small to overflow.
-/

namespace StopAttractiveness

/-! ## Binary64 rounding -/

/-- The integer nearest to `m`, a tie going to the even neighbour. -/
def roundHalfEven (m : ℚ) : ℤ :=
  let f := ⌊m⌋
  if m - f < 1 / 2 then f
  else if 1 / 2 < m - f then f + 1
  else if f % 2 = 0 then f else f + 1

/-- The exponent of the spacing of the doubles around `q`: `e - 52` for
`2^e ≤ |q| < 2^(e+1)`, and `-1074` in the subnormal range `|q| < 2^(-1022)`. -/
def ulpExp (q : ℚ) : ℤ := max (Int.log 2 |q|) (-1022) - 52

/-- Rounding to binary64 with an unbounded exponent: the multiple of `2 ^ ulpExp q` nearest
to `q`, ties to even.  It is the double nearest to `q` whenever the result is below `2^1024`
in magnitude; `JsNumber.ofRat` adds the overflow to `±Infinity`. -/
def fl (q : ℚ) : ℚ := (roundHalfEven (q / 2 ^ ulpExp q) : ℚ) * 2 ^ ulpExp q

/-! ## attractiveness.js : WeightSplitterBar -/

/-- The two drag handles; the source names them by the strings `'a'` and `'b'`. -/
inductive Handle where
  | a
  | b
  deriving DecidableEq

/-- The fields of `WeightSplitterBar` that the handlers read and write:
the cut points `a`, `b` and `dragging` (`null`, `'a'` or `'b'`). -/
structure WeightSplitterBar where
  a : ℚ
  b : ℚ
  dragging : Option Handle
  deriving DecidableEq

/-- The weights object `{w1, w2, w3}` returned by `getWeights`. -/
structure Weights where
  w1 : ℚ
  w2 : ℚ
  w3 : ℚ
  deriving DecidableEq

/-- The constant `minGap = 0.02` of `onPointerMove`: the double nearest to `2/100`. -/
def minGap : ℚ := fl (2 / 100)

/-- The state set by the constructor: `a = 1 / 3`, `b = 2 / 3` (double divisions),
`dragging = null`. -/
def WeightSplitterBar.constructor : WeightSplitterBar :=
  { a := fl (1 / 3), b := fl (2 / 3), dragging := none }

/-- The handler `onPointerDown(handle, which)`: `this.dragging = which`. -/
def WeightSplitterBar.onPointerDown (s : WeightSplitterBar) (which : Handle) :
    WeightSplitterBar :=
  { s with dragging := some which }

/-- The handler `onPointerUp`: `this.dragging = null`. -/
def WeightSplitterBar.onPointerUp (s : WeightSplitterBar) : WeightSplitterBar :=
  { s with dragging := none }

/-- The handler `onPointerMove`, where `x` is the pointer position
`(e.clientX - rect.left) / rect.width`. -/
def WeightSplitterBar.onPointerMove (s : WeightSplitterBar) (x : ℚ) : WeightSplitterBar :=
  match s.dragging with
  | none => s
  | some Handle.a =>
    let clamped := min 1 (max 0 x)
    { s with a := min (fl (s.b - minGap)) clamped }
  | some Handle.b =>
    let clamped := min 1 (max 0 x)
    { s with b := max (fl (s.a + minGap)) clamped }

/-- The value the bar's `pointerdown` listener assigns to `this.dragging`:
`da <= db ? 'a' : 'b'`, with `x` clamped to `[0, 1]` first. -/
def WeightSplitterBar.nearestHandle (s : WeightSplitterBar) (pos : ℚ) : Handle :=
  let x := min 1 (max 0 pos)
  let da := |fl (x - s.a)|
  let db := |fl (x - s.b)|
  if da ≤ db then Handle.a else Handle.b

/-- The bar's `pointerdown` listener ("click-to-move nearest handle").
`onHandle` is `e.target === this.h1 || e.target === this.h2`; the dispatched
`fakeMove` carries the same `clientX`, so `onPointerMove` sees the same position. -/
def WeightSplitterBar.onBarPointerDown (s : WeightSplitterBar) (onHandle : Bool) (pos : ℚ) :
    WeightSplitterBar :=
  if onHandle then s
  else
    let s1 := { s with dragging := some (s.nearestHandle pos) }
    let s2 := s1.onPointerMove pos
    { s2 with dragging := none }

/-- The method `getWeights`. -/
def WeightSplitterBar.getWeights (s : WeightSplitterBar) : Weights :=
  let w1 := s.a
  let w2 := fl (s.b - s.a)
  let w3 := fl (1 - s.b)
  let sum := fl (fl (w1 + w2) + w3)
  { w1 := fl (w1 / sum), w2 := fl (w2 / sum), w3 := fl (w3 / sum) }

/-- One set-cut-point step: the pointer moves to `x` while `which` is being dragged. -/
def WeightSplitterBar.setCutPoint (s : WeightSplitterBar) (which : Handle) (x : ℚ) :
    WeightSplitterBar :=
  (s.onPointerDown which).onPointerMove x

/-- The state after a finite sequence of set-cut-point steps, applied left to right. -/
def WeightSplitterBar.run (s : WeightSplitterBar) (steps : List (Handle × ℚ)) :
    WeightSplitterBar :=
  steps.foldl (fun st p => st.setCutPoint p.1 p.2) s

/-- The cut point that a handle moves: `this.a` for `'a'`, `this.b` for `'b'`. -/
def WeightSplitterBar.cut (s : WeightSplitterBar) : Handle → ℚ
  | Handle.a => s.a
  | Handle.b => s.b

/-- The invariant of the cut points: `0 ≤ a ≤ 0.98`, `0.02 ≤ b ≤ 1` (as doubles) and
`b - a ≥ minGap - 2^(-54)`, the gap up to one rounding. -/
def CutInvariant (s : WeightSplitterBar) : Prop :=
  0 ≤ s.a ∧ s.a ≤ fl (1 - minGap) ∧ minGap ≤ s.b ∧ s.b ≤ 1 ∧
    minGap - 1 / 2 ^ 54 ≤ s.b - s.a

/-! ## heatmap.js -/

/-- The function `clamp01`. -/
def clamp01 (x : ℚ) : ℚ := min 1 (max 0 x)

/-- The built-in `Math.round`: the nearest integer, a half rounded towards `+∞` (exact). -/
def mathRound (x : ℚ) : ℤ := ⌊x + 1 / 2⌋

/-- The channels `r`, `g`, `b` computed by `yellowToRed`. -/
structure Rgb where
  r : ℤ
  g : ℤ
  b : ℤ
  deriving DecidableEq

/-- The body of `yellowToRed` up to the template string: the three channels. -/
def yellowToRedRgb (t : ℚ) : Rgb :=
  let t := clamp01 t
  let r := 255
  let g := mathRound (fl (255 * fl (1 - t)))
  let b := 0
  { r := r, g := g, b := b }

/-- The function `yellowToRed`: the template string filled with the three channels. -/
def yellowToRed (t : ℚ) : String :=
  let c := yellowToRedRgb t
  "rgb(" ++ toString c.r ++ "," ++ toString c.g ++ "," ++ toString c.b ++ ")"

/-- A JavaScript number as `computeMinMax` distinguishes them: `NaN`, `-Infinity`,
a finite value, `Infinity`. -/
inductive JsNumber where
  | nan
  | negInf
  | fin (q : ℚ)
  | posInf
  deriving DecidableEq

/-- A JavaScript value as it can occur in the `values` array. -/
inductive JsValue where
  | undefined
  | null
  | bool (b : Bool)
  | number (n : JsNumber)
  | string (s : String)
  | object
  deriving DecidableEq

/-- The operator `x < y` on numbers; every comparison with `NaN` is false. -/
def JsNumber.lt : JsNumber → JsNumber → Bool
  | JsNumber.nan, _ => false
  | _, JsNumber.nan => false
  | JsNumber.negInf, JsNumber.negInf => false
  | JsNumber.negInf, _ => true
  | JsNumber.fin _, JsNumber.negInf => false
  | JsNumber.fin p, JsNumber.fin q => decide (p < q)
  | JsNumber.fin _, JsNumber.posInf => true
  | JsNumber.posInf, _ => false

/-- The operator `x > y` on numbers. -/
def JsNumber.gt (x y : JsNumber) : Bool := y.lt x

/-- The built-in `Number.isNaN` on a number. -/
def JsNumber.isNaN : JsNumber → Bool
  | JsNumber.nan => true
  | _ => false

/-- The built-in `Number.isFinite` on a number. -/
def JsNumber.isFinite : JsNumber → Bool
  | JsNumber.fin _ => true
  | _ => false

/-- The test `typeof v === 'number' && !Number.isNaN(v)`, the negation of the
`continue` condition in `computeMinMax`. -/
def JsValue.isValidSample : JsValue → Bool
  | JsValue.number n => !n.isNaN
  | _ => false

/-- The object `{min, max}` returned by `computeMinMax`. -/
structure MinMax where
  min : JsNumber
  max : JsNumber
  deriving DecidableEq

/-- One iteration of the `for` loop of `computeMinMax` on the pair `(min, max)`. -/
def computeMinMaxStep (acc : JsNumber × JsNumber) (v : JsValue) : JsNumber × JsNumber :=
  match v with
  | JsValue.number n =>
    if n.isNaN then acc
    else
      let min := if n.lt acc.1 then n else acc.1
      let max := if n.gt acc.2 then n else acc.2
      (min, max)
  | _ => acc

/-- The function `computeMinMax`; `none` is the result `null`. -/
def computeMinMax (values : List JsValue) : Option MinMax :=
  let acc := values.foldl computeMinMaxStep (JsNumber.posInf, JsNumber.negInf)
  if !acc.1.isFinite || !acc.2.isFinite then none
  else some { min := acc.1, max := acc.2 }

/-- The double, or `±Infinity` on overflow, that an operation with exact result `q` returns. -/
def JsNumber.ofRat (q : ℚ) : JsNumber :=
  if 2 ^ 1024 ≤ fl q then JsNumber.posInf
  else if fl q ≤ -2 ^ 1024 then JsNumber.negInf
  else JsNumber.fin (fl q)

/-- The operator `x - y` on numbers. -/
def JsNumber.sub : JsNumber → JsNumber → JsNumber
  | JsNumber.nan, _ => JsNumber.nan
  | _, JsNumber.nan => JsNumber.nan
  | JsNumber.posInf, JsNumber.posInf => JsNumber.nan
  | JsNumber.negInf, JsNumber.negInf => JsNumber.nan
  | JsNumber.posInf, _ => JsNumber.posInf
  | JsNumber.negInf, _ => JsNumber.negInf
  | JsNumber.fin _, JsNumber.posInf => JsNumber.negInf
  | JsNumber.fin _, JsNumber.negInf => JsNumber.posInf
  | JsNumber.fin p, JsNumber.fin q => JsNumber.ofRat (p - q)

/-- The operator `x / y` on numbers; a zero divisor is taken to be `+0`. -/
def JsNumber.div : JsNumber → JsNumber → JsNumber
  | JsNumber.nan, _ => JsNumber.nan
  | _, JsNumber.nan => JsNumber.nan
  | JsNumber.posInf, JsNumber.fin q => if q < 0 then JsNumber.negInf else JsNumber.posInf
  | JsNumber.negInf, JsNumber.fin q => if q < 0 then JsNumber.posInf else JsNumber.negInf
  | JsNumber.posInf, _ => JsNumber.nan
  | JsNumber.negInf, _ => JsNumber.nan
  | JsNumber.fin _, JsNumber.posInf => JsNumber.fin 0
  | JsNumber.fin _, JsNumber.negInf => JsNumber.fin 0
  | JsNumber.fin p, JsNumber.fin q =>
    if q = 0 then
      if p = 0 then JsNumber.nan else if p < 0 then JsNumber.negInf else JsNumber.posInf
    else JsNumber.ofRat (p / q)

/-- The operator `x === y` on numbers: `NaN` equals nothing. -/
def JsNumber.strictEq : JsNumber → JsNumber → Bool
  | JsNumber.nan, _ => false
  | _, JsNumber.nan => false
  | x, y => decide (x = y)

/-- A rational that is a finite double. -/
def IsDouble (q : ℚ) : Prop := fl q = q ∧ |q| < 2 ^ 1024

/-- The function `norm`. -/
def norm (v min max : JsNumber) : JsNumber :=
  if max.strictEq min then JsNumber.fin 0 else (v.sub min).div (max.sub min)

/-! ## attractiveness.js : the weight inputs and the request of `compute` -/

/-- The digits and decimal point produced by the built-in `Number.prototype.toFixed` for the
integer `n` with `f` fraction digits: the decimal digits of `n`, padded with leading zeros to
`f + 1` characters, with a `.` before the last `f` digits when `f ≠ 0`. -/
def toFixedDigits (n f : ℕ) : List Char :=
  let m := Nat.toDigits 10 n
  let m := if f ≠ 0 ∧ m.length ≤ f then List.replicate (f + 1 - m.length) '0' ++ m else m
  if f ≠ 0 then m.take (m.length - f) ++ '.' :: m.drop (m.length - f) else m

/-- The built-in `x.toFixed(f)` for a finite `x` of magnitude below `10^21` (above it the
built-in switches to exponent notation, which is not modelled): a sign, and the digits of the
integer `n` for which `n / 10^f` is nearest to `|x|`, the larger `n` on a tie. -/
def toFixed (x : ℚ) (f : ℕ) : String :=
  let s := if x < 0 then "-" else ""
  let x := if x < 0 then -x else x
  let n := ⌊x * 10 ^ f + 1 / 2⌋.toNat
  s ++ String.mk (toFixedDigits n f)

/-- The characters the built-in `encodeURIComponent` leaves unescaped. -/
def isUriUnreserved (c : Char) : Bool :=
  c.isAlphanum || c ∈ ['-', '_', '.', '!', '~', '*', Char.ofNat 39, '(', ')']

/-- An upper-case hexadecimal digit. -/
def hexDigitUpper (n : ℕ) : Char :=
  if n < 10 then Char.ofNat (48 + n) else Char.ofNat (55 + n)

/-- The escape `%XX%YY...` of the UTF-8 bytes of a character. -/
def percentEncode (c : Char) : List Char :=
  (String.utf8EncodeChar c).flatMap fun b =>
    ['%', hexDigitUpper (b.toNat / 16), hexDigitUpper (b.toNat % 16)]

/-- The built-in `encodeURIComponent`. -/
def encodeURIComponent (s : String) : String :=
  String.mk (s.data.flatMap fun c => if isUriUnreserved c then [c] else percentEncode c)

/-- The `value` of the elements `w1-input`, `w2-input`, `w3-input`; `none` when the element
is missing. -/
structure WeightInputs where
  w1Input : Option String
  w2Input : Option String
  w3Input : Option String
  deriving DecidableEq

/-- The part of `render` that fills the three inputs (which exist, or the assignment throws):
`this.w1Input.value = w1.toFixed(4)` and likewise for `w2`, `w3`. -/
def WeightSplitterBar.render (s : WeightSplitterBar) : WeightInputs :=
  let w := s.getWeights
  { w1Input := some (toFixed w.w1 4)
    w2Input := some (toFixed w.w2 4)
    w3Input := some (toFixed w.w3 4) }

/-- The constants `w1`, `w2`, `w3` of `compute`. -/
structure WeightParams where
  w1 : String
  w2 : String
  w3 : String
  deriving DecidableEq

/-- The weights `compute` reads: `this.w1Input?.value ?? '0.3333'` and so on. -/
def computeWeightParams (inputs : WeightInputs) : WeightParams :=
  { w1 := inputs.w1Input.getD "0.3333"
    w2 := inputs.w2Input.getD "0.3333"
    w3 := inputs.w3Input.getD "0.3334" }

/-- The URL that `compute` fetches; `none` when it returns early because a date is empty. -/
def compute (start endDate : String) (inputs : WeightInputs) : Option String :=
  if start = "" ∨ endDate = "" then none
  else
    let q := computeWeightParams inputs
    some ("/api/station-scores/?start_date=" ++ encodeURIComponent start
      ++ "&end_date=" ++ encodeURIComponent endDate
      ++ "&w1=" ++ encodeURIComponent q.w1
      ++ "&w2=" ++ encodeURIComponent q.w2
      ++ "&w3=" ++ encodeURIComponent q.w3)

/-- The number that a string of decimal digits denotes (most significant digit first). -/
def digitsNat (cs : List Char) : ℕ :=
  cs.foldl (fun acc c => 10 * acc + (c.toNat - 48)) 0

/-- The number denoted by a non-empty string of decimal digits. -/
def digitsValue (cs : List Char) : Option ℕ :=
  if cs ≠ [] ∧ cs.all Char.isDigit then some (digitsNat cs) else none

/-- The number that a decimal string such as `-12.3400` denotes: an optional `-`, digits,
and optionally `.` and more digits.  This is the reading of "written as decimal strings". -/
def decimalValue (s : String) : Option ℚ :=
  let neg := s.data.head? = some '-'
  let cs := if neg then s.data.tail else s.data
  let ip := cs.takeWhile (fun c => c != '.')
  let rest := cs.dropWhile (fun c => c != '.')
  let v : Option ℚ :=
    match rest with
    | [] => (digitsValue ip).map fun i => (i : ℚ)
    | _ :: fp =>
      match digitsValue ip, digitsValue fp with
      | some i, some f => some ((i : ℚ) + (f : ℚ) / 10 ^ fp.length)
      | _, _ => none
  v.map fun q => if neg then -q else q

/-! ## data-selector.js : DataSelector -/

/-- The built-in `Array.prototype.slice(start, end)`: a negative index counts from the end,
and both indices are clamped to `[0, length]`. -/
def jsSlice {α : Type} (xs : List α) (start stop : ℤ) : List α :=
  let len : ℤ := xs.length
  let k := if start < 0 then max (len + start) 0 else min start len
  let final := if stop < 0 then max (len + stop) 0 else min stop len
  (xs.drop k.toNat).take (final - k).toNat

/-- The fields of `DataSelector` used by the pagination, and `tableBody`, the records whose
rows `displayCurrentPage` appends to the table body, in order. -/
structure DataSelector (α : Type) where
  allData : List α
  currentPage : ℤ
  rowsPerPage : ℕ
  totalPages : ℤ
  tableBody : List α

/-- The pagination fields set by the constructor: no data, page 1, 10 rows per page. -/
def DataSelector.constructor (α : Type) : DataSelector α :=
  { allData := [], currentPage := 1, rowsPerPage := 10, totalPages := 0, tableBody := [] }

/-- The method `displayCurrentPage`; `Math.ceil` is the ceiling of the exact quotient. -/
def DataSelector.displayCurrentPage {α : Type} (s : DataSelector α) : DataSelector α :=
  if s.allData.length = 0 then { s with tableBody := [] }
  else
    let totalPages := ⌈(s.allData.length : ℚ) / (s.rowsPerPage : ℚ)⌉
    let startIndex := (s.currentPage - 1) * (s.rowsPerPage : ℤ)
    let endIndex := min (startIndex + (s.rowsPerPage : ℤ)) (s.allData.length : ℤ)
    let pageData := jsSlice s.allData startIndex endIndex
    { s with totalPages := totalPages, tableBody := pageData }

/-- The `value` of a date input as `validateDateRange` sees it: the empty string, a string
that `new Date` parses to the time value `ms` (milliseconds since the epoch), or a non-empty
string that `new Date` cannot parse (time value `NaN`). -/
inductive DateValue where
  | empty
  | date (ms : ℤ)
  | invalid
  deriving DecidableEq

/-- The value `YYYY-MM-DD` of the calendar day number `d` (days since 1970-01-01): a
date-only string is parsed as midnight UTC of that day. -/
def DateValue.ofDay (d : ℤ) : DateValue := DateValue.date (d * 86400000)

/-- The time value of `new Date(value)`; `none` is `NaN`. -/
def DateValue.time : DateValue → Option ℤ
  | DateValue.date ms => some ms
  | _ => none

/-- The result of `validateDateRange`: the value returned, and the message shown by
`showError` (`none` after `clearError`). -/
structure Validation where
  ok : Bool
  error : Option String
  deriving DecidableEq

/-- The method `validateDateRange` on the values of the start and end date inputs.  With a
`NaN` time value the comparisons `startDate > endDate` and `daysDifference > 7` are false. -/
def validateDateRange (startValue endValue : DateValue) : Validation :=
  let startDate := startValue.time
  let endDate := endValue.time
  if startValue = DateValue.empty ∨ endValue = DateValue.empty then
    { ok := false, error := some "Please select both start and end dates" }
  else
    match startDate, endDate with
    | some st, some en =>
      if st > en then
        { ok := false, error := some "Start date must be before or equal to end date" }
      else
        let daysDifference := ⌊((en - st : ℤ) : ℚ) / (1000 * 60 * 60 * 24)⌋
        if daysDifference > 7 then
          { ok := false, error := some "Date range cannot exceed 7 days" }
        else { ok := true, error := none }
    | _, _ => { ok := true, error := none }

/-! ## Theorems -/

/-! ### Binary64 rounding: error bound, monotonicity, evaluation -/

theorem roundHalfEven_cases (m : ℚ) :
    roundHalfEven m = ⌊m⌋ ∧ m - ⌊m⌋ ≤ 1 / 2 ∨ roundHalfEven m = ⌊m⌋ + 1 ∧ 1 / 2 ≤ m - ⌊m⌋ := by
  unfold roundHalfEven
  simp only
  split_ifs with h1 h2 h3
  · exact Or.inl ⟨rfl, le_of_lt h1⟩
  · exact Or.inr ⟨rfl, le_of_lt h2⟩
  · exact Or.inl ⟨rfl, not_lt.1 h2⟩
  · exact Or.inr ⟨rfl, not_lt.1 h1⟩

theorem roundHalfEven_abs_sub_le (m : ℚ) : |(roundHalfEven m : ℚ) - m| ≤ 1 / 2 := by
  have h1 := Int.floor_le m
  have h2 := Int.lt_floor_add_one m
  rw [abs_le]
  rcases roundHalfEven_cases m with ⟨h, hh⟩ | ⟨h, hh⟩ <;> rw [h] <;> push_cast <;>
    constructor <;> linarith

theorem roundHalfEven_eq_of_abs_lt (m : ℚ) (k : ℤ) (h : |m - k| < 1 / 2) :
    roundHalfEven m = k := by
  have h1 := roundHalfEven_abs_sub_le m
  rw [abs_le] at h1
  rw [abs_lt] at h
  have : ((roundHalfEven m - k : ℤ) : ℚ) < 1 ∧ (-1 : ℚ) < ((roundHalfEven m - k : ℤ) : ℚ) := by
    push_cast
    constructor <;> linarith
  have h3 : roundHalfEven m - k < 1 := by exact_mod_cast this.1
  have h4 : -1 < roundHalfEven m - k := by exact_mod_cast this.2
  omega

theorem roundHalfEven_intCast (k : ℤ) : roundHalfEven (k : ℚ) = k :=
  roundHalfEven_eq_of_abs_lt _ k (by simp)

theorem roundHalfEven_mono {m n : ℚ} (h : m ≤ n) : roundHalfEven m ≤ roundHalfEven n := by
  have hf : ⌊m⌋ ≤ ⌊n⌋ := Int.floor_mono h
  rcases lt_or_eq_of_le hf with hlt | heq
  · have a : roundHalfEven m ≤ ⌊m⌋ + 1 := by
      rcases roundHalfEven_cases m with ⟨h, -⟩ | ⟨h, -⟩ <;> rw [h] <;> omega
    have b : ⌊n⌋ ≤ roundHalfEven n := by
      rcases roundHalfEven_cases n with ⟨h, -⟩ | ⟨h, -⟩ <;> rw [h] <;> omega
    omega
  · unfold roundHalfEven
    simp only [heq]
    have hmn : m - ⌊n⌋ ≤ n - ⌊n⌋ := by linarith
    split_ifs <;> first | omega | (exfalso; linarith)

theorem roundHalfEven_neg (m : ℚ) : roundHalfEven (-m) = -roundHalfEven m := by
  by_cases hi : (⌊m⌋ : ℚ) = m
  · rw [← hi, ← Int.cast_neg, roundHalfEven_intCast, roundHalfEven_intCast]
  · have hlt : (⌊m⌋ : ℚ) < m := lt_of_le_of_ne (Int.floor_le m) hi
    have hfl : ⌊-m⌋ = -⌊m⌋ - 1 := by
      rw [Int.floor_eq_iff]
      have := Int.lt_floor_add_one m
      push_cast
      constructor <;> linarith
    unfold roundHalfEven
    simp only [hfl]
    push_cast
    have e1 : -m - (-(⌊m⌋ : ℚ) - 1) = 1 - (m - ⌊m⌋) := by ring
    rw [e1]
    split_ifs <;> first | omega | (exfalso; linarith)

theorem two_zpow_pos (z : ℤ) : (0 : ℚ) < 2 ^ z := zpow_pos (by norm_num) z

theorem fl_zero : fl 0 = 0 := by
  unfold fl
  rw [zero_div]
  have : roundHalfEven 0 = 0 := by simpa using roundHalfEven_intCast 0
  rw [this]
  simp

theorem ulpExp_neg (q : ℚ) : ulpExp (-q) = ulpExp q := by
  unfold ulpExp
  rw [abs_neg]

theorem fl_neg (q : ℚ) : fl (-q) = -fl q := by
  unfold fl
  rw [ulpExp_neg, neg_div, roundHalfEven_neg]
  push_cast
  ring

theorem fl_abs_sub_le (q : ℚ) : |fl q - q| ≤ 2 ^ ulpExp q / 2 := by
  have hp := two_zpow_pos (ulpExp q)
  have h := roundHalfEven_abs_sub_le (q / 2 ^ ulpExp q)
  have e : fl q - q = ((roundHalfEven (q / 2 ^ ulpExp q) : ℚ) - q / 2 ^ ulpExp q) * 2 ^ ulpExp q := by
    unfold fl
    field_simp
  rw [e, abs_mul, abs_of_pos hp]
  calc |(roundHalfEven (q / 2 ^ ulpExp q) : ℚ) - q / 2 ^ ulpExp q| * 2 ^ ulpExp q
      ≤ 1 / 2 * 2 ^ ulpExp q := mul_le_mul_of_nonneg_right h hp.le
    _ = 2 ^ ulpExp q / 2 := by ring

theorem abs_lt_two_zpow_iff (q : ℚ) (hq : q ≠ 0) (k : ℤ) :
    |q| < 2 ^ k ↔ Int.log 2 |q| < k := by
  have := Int.lt_zpow_iff_log_lt (R := ℚ) (b := 2) (by norm_num) (x := k) (abs_pos.2 hq)
  simpa using this

theorem two_zpow_le_abs_iff (q : ℚ) (hq : q ≠ 0) (k : ℤ) :
    2 ^ k ≤ |q| ↔ k ≤ Int.log 2 |q| := by
  have := Int.zpow_le_iff_le_log (R := ℚ) (b := 2) (by norm_num) (x := k) (abs_pos.2 hq)
  simpa using this

theorem ulpExp_le_of_abs_lt (q : ℚ) (hq : q ≠ 0) (k : ℤ) (hk : -1021 ≤ k) (h : |q| < 2 ^ k) :
    ulpExp q ≤ k - 53 := by
  unfold ulpExp
  have := (abs_lt_two_zpow_iff q hq k).1 h
  omega

/-- Rounding error: a number of magnitude below `2^k` is moved by at most `2^(k-54)`. -/
theorem fl_error (q : ℚ) (k : ℤ) (hk : -1021 ≤ k) (h : |q| < 2 ^ k) :
    |fl q - q| ≤ 2 ^ (k - 54) := by
  by_cases hq : q = 0
  · subst hq
    rw [fl_zero, sub_zero, abs_zero]
    exact (two_zpow_pos _).le
  · have h1 := fl_abs_sub_le q
    have h2 := ulpExp_le_of_abs_lt q hq k hk h
    have h3 : (2 : ℚ) ^ ulpExp q ≤ 2 ^ (k - 53) := zpow_le_zpow_right₀ (by norm_num) h2
    have h4 : (2 : ℚ) ^ (k - 53) = 2 * 2 ^ (k - 54) := by
      rw [show k - 53 = (k - 54) + 1 by ring, zpow_add_one₀ (by norm_num)]
      ring
    linarith

theorem fl_nonneg {q : ℚ} (h : 0 ≤ q) : 0 ≤ fl q := by
  unfold fl
  have hp := two_zpow_pos (ulpExp q)
  have : (0 : ℤ) ≤ roundHalfEven (q / 2 ^ ulpExp q) := by
    have := roundHalfEven_mono (div_nonneg h hp.le)
    rwa [show roundHalfEven 0 = 0 by simpa using roundHalfEven_intCast 0] at this
  exact mul_nonneg (by exact_mod_cast this) hp.le

/-- For `q ≠ 0`, with `e = max (log₂ |q|) (-1022)`: `|q| < 2^(e+1)`, and `2^e ≤ |q|` unless
`q` is subnormal. -/
theorem ulpExp_spec (q : ℚ) (hq : q ≠ 0) :
    |q| < 2 ^ (ulpExp q + 53) ∧ (-1074 < ulpExp q → 2 ^ (ulpExp q + 52) ≤ |q|) := by
  unfold ulpExp
  constructor
  · rw [abs_lt_two_zpow_iff q hq]
    omega
  · intro h
    rw [two_zpow_le_abs_iff q hq]
    omega

/-- On positive numbers rounding stays within the binade: `fl q ≤ 2^(e+1)`. -/
theorem fl_le_binade (q : ℚ) (hq : 0 < q) : fl q ≤ 2 ^ (ulpExp q + 53) := by
  have hp := two_zpow_pos (ulpExp q)
  have h := (ulpExp_spec q hq.ne').1
  rw [abs_of_pos hq] at h
  have hm : q / 2 ^ ulpExp q ≤ ((2 ^ 53 : ℤ) : ℚ) := by
    rw [div_le_iff₀ hp]
    push_cast
    rw [zpow_add₀ (by norm_num : (2 : ℚ) ≠ 0)] at h
    have : (2 : ℚ) ^ (53 : ℤ) = 2 ^ 53 := by norm_cast
    rw [this] at h
    linarith
  have hr := roundHalfEven_mono hm
  rw [roundHalfEven_intCast] at hr
  unfold fl
  have hr' : (roundHalfEven (q / 2 ^ ulpExp q) : ℚ) ≤ 2 ^ 53 := by exact_mod_cast hr
  calc (roundHalfEven (q / 2 ^ ulpExp q) : ℚ) * 2 ^ ulpExp q
      ≤ 2 ^ 53 * 2 ^ ulpExp q := mul_le_mul_of_nonneg_right hr' hp.le
    _ = 2 ^ (ulpExp q + 53) := by
      rw [zpow_add₀ (by norm_num : (2 : ℚ) ≠ 0)]
      have : (2 : ℚ) ^ (53 : ℤ) = 2 ^ 53 := by norm_cast
      rw [this]; ring

theorem binade_le_fl (q : ℚ) (hq : 0 < q) (hn : -1074 < ulpExp q) :
    2 ^ (ulpExp q + 52) ≤ fl q := by
  have hp := two_zpow_pos (ulpExp q)
  have h := (ulpExp_spec q hq.ne').2 hn
  rw [abs_of_pos hq] at h
  have e52 : (2 : ℚ) ^ (52 : ℤ) = 2 ^ 52 := by norm_cast
  have hm : ((2 ^ 52 : ℤ) : ℚ) ≤ q / 2 ^ ulpExp q := by
    rw [le_div_iff₀ hp]
    push_cast
    rw [zpow_add₀ (by norm_num : (2 : ℚ) ≠ 0), e52] at h
    linarith
  have hr := roundHalfEven_mono hm
  rw [roundHalfEven_intCast] at hr
  unfold fl
  have hr' : (2 : ℚ) ^ 52 ≤ (roundHalfEven (q / 2 ^ ulpExp q) : ℚ) := by exact_mod_cast hr
  calc (2 : ℚ) ^ (ulpExp q + 52) = 2 ^ 52 * 2 ^ ulpExp q := by
        rw [zpow_add₀ (by norm_num : (2 : ℚ) ≠ 0), e52]; ring
    _ ≤ (roundHalfEven (q / 2 ^ ulpExp q) : ℚ) * 2 ^ ulpExp q :=
        mul_le_mul_of_nonneg_right hr' hp.le

theorem ulpExp_mono {p q : ℚ} (hp : 0 < p) (h : p ≤ q) : ulpExp p ≤ ulpExp q := by
  unfold ulpExp
  have hq : 0 < q := lt_of_lt_of_le hp h
  have := Int.log_mono_right (b := 2) (abs_pos.2 hp.ne') (by
    rw [abs_of_pos hp, abs_of_pos hq]; exact h : |p| ≤ |q|)
  omega

theorem fl_mono_pos {p q : ℚ} (hp : 0 < p) (h : p ≤ q) : fl p ≤ fl q := by
  have hq : 0 < q := lt_of_lt_of_le hp h
  rcases lt_or_eq_of_le (ulpExp_mono hp h) with hlt | heq
  · have a := fl_le_binade p hp
    have hge : -1074 ≤ ulpExp p := by unfold ulpExp; omega
    have b := binade_le_fl q hq (by omega)
    have c : (2 : ℚ) ^ (ulpExp p + 53) ≤ 2 ^ (ulpExp q + 52) :=
      zpow_le_zpow_right₀ (by norm_num) (by omega)
    linarith
  · unfold fl
    rw [heq]
    have hpos := two_zpow_pos (ulpExp q)
    have := roundHalfEven_mono (div_le_div_of_nonneg_right h hpos.le)
    exact mul_le_mul_of_nonneg_right (by exact_mod_cast this) hpos.le

/-- Rounding is monotone. -/
theorem fl_mono {p q : ℚ} (h : p ≤ q) : fl p ≤ fl q := by
  rcases lt_trichotomy p 0 with hp | hp | hp
  · rcases lt_or_le q 0 with hq | hq
    · have := fl_mono_pos (neg_pos.2 hq) (neg_le_neg h)
      rw [fl_neg, fl_neg] at this
      linarith
    · have h1 := fl_nonneg hq
      have h2 := fl_nonneg (neg_pos.2 hp).le
      rw [fl_neg] at h2
      linarith
  · subst hp
    rw [fl_zero]
    exact fl_nonneg h
  · exact fl_mono_pos hp h

/-- Evaluation of `fl` from a certificate: the binade `e` of `q` and the integer `m` nearest
to `q / 2^(e - 52)`. -/
theorem fl_eq_of (q : ℚ) (e m : ℤ) (he : -1022 ≤ e) (h1 : 2 ^ e ≤ |q|) (h2 : |q| < 2 ^ (e + 1))
    (hm : |q / 2 ^ (e - 52) - m| < 1 / 2) : fl q = m * 2 ^ (e - 52) := by
  have hq : q ≠ 0 := by
    intro h
    rw [h, abs_zero] at h1
    exact absurd h1 (not_le.2 (two_zpow_pos e))
  have hl : Int.log 2 |q| = e := by
    have a := (two_zpow_le_abs_iff q hq e).1 h1
    have b := (abs_lt_two_zpow_iff q hq (e + 1)).1 h2
    omega
  have hu : ulpExp q = e - 52 := by
    unfold ulpExp
    rw [hl, max_eq_left he]
  unfold fl
  rw [hu, roundHalfEven_eq_of_abs_lt _ m hm]

theorem fl_error_lt_one (q : ℚ) (h : |q| < 1) : |fl q - q| ≤ 1 / 2 ^ 54 := by
  have := fl_error q 0 (by norm_num) (by simpa using h)
  norm_num at this ⊢
  exact this

theorem fl_error_lt_two (q : ℚ) (h : |q| < 2) : |fl q - q| ≤ 1 / 2 ^ 53 := by
  have := fl_error q 1 (by norm_num) (by simpa using h)
  norm_num at this ⊢
  exact this

theorem roundHalfEven_tie (f : ℤ) :
    roundHalfEven ((f : ℚ) + 1 / 2) = if f % 2 = 0 then f else f + 1 := by
  have hf : ⌊(f : ℚ) + 1 / 2⌋ = f := by
    rw [Int.floor_eq_iff]
    constructor <;> linarith
  unfold roundHalfEven
  simp only [hf]
  have e : (f : ℚ) + 1 / 2 - (f : ℚ) = 1 / 2 := by ring
  rw [e, if_neg (lt_irrefl _), if_neg (lt_irrefl _)]

/-- Evaluation of `fl` at a tie: `q / 2^(e - 52)` is `f + 1/2`, and `m` is the even one of
`f`, `f + 1`. -/
theorem fl_eq_of_tie (q : ℚ) (e f m : ℤ) (he : -1022 ≤ e) (h1 : 2 ^ e ≤ |q|)
    (h2 : |q| < 2 ^ (e + 1)) (hm : q / 2 ^ (e - 52) = (f : ℚ) + 1 / 2)
    (hmv : m = if f % 2 = 0 then f else f + 1) : fl q = m * 2 ^ (e - 52) := by
  have hq : q ≠ 0 := by
    intro h
    rw [h, abs_zero] at h1
    exact absurd h1 (not_le.2 (two_zpow_pos e))
  have hl : Int.log 2 |q| = e := by
    have a := (two_zpow_le_abs_iff q hq e).1 h1
    have b := (abs_lt_two_zpow_iff q hq (e + 1)).1 h2
    omega
  have hu : ulpExp q = e - 52 := by
    unfold ulpExp
    rw [hl, max_eq_left he]
  unfold fl
  rw [hu, hm, roundHalfEven_tie, ← hmv]
/-! ### Roundings of the numbers that occur in the splitter examples -/

theorem fl_lit_1 : fl (1 / 50) = 5764607523034235 / 288230376151711744 := by
  rw [fl_eq_of (1 / 50) (-6) (5764607523034235) (by norm_num)
    (by rw [abs_of_pos (by norm_num)]; norm_num)
    (by rw [abs_of_pos (by norm_num)]; norm_num)
    (by rw [abs_lt]; constructor <;> norm_num)]
  norm_num
theorem fl_lit_2 : fl (1 / 3) = 6004799503160661 / 18014398509481984 := by
  rw [fl_eq_of (1 / 3) (-2) (6004799503160661) (by norm_num)
    (by rw [abs_of_pos (by norm_num)]; norm_num)
    (by rw [abs_of_pos (by norm_num)]; norm_num)
    (by rw [abs_lt]; constructor <;> norm_num)]
  norm_num
theorem fl_lit_3 : fl (2 / 3) = 6004799503160661 / 9007199254740992 := by
  rw [fl_eq_of (2 / 3) (-1) (6004799503160661) (by norm_num)
    (by rw [abs_of_pos (by norm_num)]; norm_num)
    (by rw [abs_of_pos (by norm_num)]; norm_num)
    (by rw [abs_lt]; constructor <;> norm_num)]
  norm_num
theorem fl_lit_4 : fl (5764607523034235 / 288230376151711744) = 5764607523034235 / 288230376151711744 := by
  rw [fl_eq_of (5764607523034235 / 288230376151711744) (-6) (5764607523034235) (by norm_num)
    (by rw [abs_of_pos (by norm_num)]; norm_num)
    (by rw [abs_of_pos (by norm_num)]; norm_num)
    (by rw [abs_lt]; constructor <;> norm_num)]
  norm_num
theorem fl_lit_5 : fl 1 = 1 := by
  rw [fl_eq_of 1 (0) (4503599627370496) (by norm_num)
    (by rw [abs_of_pos (by norm_num)]; norm_num)
    (by rw [abs_of_pos (by norm_num)]; norm_num)
    (by rw [abs_lt]; constructor <;> norm_num)]
  norm_num
theorem fl_lit_6 : fl (282465768628677509 / 288230376151711744) = 2206763817411543 / 2251799813685248 := by
  rw [fl_eq_of (282465768628677509 / 288230376151711744) (-1) (8827055269646172) (by norm_num)
    (by rw [abs_of_pos (by norm_num)]; norm_num)
    (by rw [abs_of_pos (by norm_num)]; norm_num)
    (by rw [abs_lt]; constructor <;> norm_num)]
  norm_num
theorem fl_lit_7 : fl (288230376151711739 / 288230376151711744) = 1 := by
  rw [fl_eq_of (288230376151711739 / 288230376151711744) (-1) (9007199254740992) (by norm_num)
    (by rw [abs_of_pos (by norm_num)]; norm_num)
    (by rw [abs_of_pos (by norm_num)]; norm_num)
    (by rw [abs_lt]; constructor <;> norm_num)]
  norm_num
theorem fl_lit_8 : fl (3 / 25) = 1080863910568919 / 9007199254740992 := by
  rw [fl_eq_of (3 / 25) (-4) (8646911284551352) (by norm_num)
    (by rw [abs_of_pos (by norm_num)]; norm_num)
    (by rw [abs_of_pos (by norm_num)]; norm_num)
    (by rw [abs_lt]; constructor <;> norm_num)]
  norm_num
theorem fl_lit_9 : fl (186388976578106917 / 288230376151711744) = 5824655518065841 / 9007199254740992 := by
  rw [fl_eq_of (186388976578106917 / 288230376151711744) (-1) (5824655518065841) (by norm_num)
    (by rw [abs_of_pos (by norm_num)]; norm_num)
    (by rw [abs_of_pos (by norm_num)]; norm_num)
    (by rw [abs_lt]; constructor <;> norm_num)]
  norm_num
theorem fl_lit_10 : fl (40352252661239643 / 288230376151711744) = 5044031582654955 / 36028797018963968 := by
  rw [fl_eq_of (40352252661239643 / 288230376151711744) (-3) (5044031582654955) (by norm_num)
    (by rw [abs_of_pos (by norm_num)]; norm_num)
    (by rw [abs_of_pos (by norm_num)]; norm_num)
    (by rw [abs_lt]; constructor <;> norm_num)]
  norm_num
theorem fl_lit_11 : fl (6004799503160661 / 18014398509481984) = 6004799503160661 / 18014398509481984 := by
  rw [fl_eq_of (6004799503160661 / 18014398509481984) (-2) (6004799503160661) (by norm_num)
    (by rw [abs_of_pos (by norm_num)]; norm_num)
    (by rw [abs_of_pos (by norm_num)]; norm_num)
    (by rw [abs_lt]; constructor <;> norm_num)]
  norm_num
theorem fl_lit_12 : fl (3002399751580331 / 9007199254740992) = 3002399751580331 / 9007199254740992 := by
  rw [fl_eq_of (3002399751580331 / 9007199254740992) (-2) (6004799503160662) (by norm_num)
    (by rw [abs_of_pos (by norm_num)]; norm_num)
    (by rw [abs_of_pos (by norm_num)]; norm_num)
    (by rw [abs_lt]; constructor <;> norm_num)]
  norm_num
theorem fl_lit_13 : fl (6004799503160661 / 9007199254740992) = 6004799503160661 / 9007199254740992 := by
  rw [fl_eq_of (6004799503160661 / 9007199254740992) (-1) (6004799503160661) (by norm_num)
    (by rw [abs_of_pos (by norm_num)]; norm_num)
    (by rw [abs_of_pos (by norm_num)]; norm_num)
    (by rw [abs_lt]; constructor <;> norm_num)]
  norm_num
theorem fl_lit_14 : fl (21 / 25) = 7566047373982433 / 9007199254740992 := by
  rw [fl_eq_of (21 / 25) (-1) (7566047373982433) (by norm_num)
    (by rw [abs_of_pos (by norm_num)]; norm_num)
    (by rw [abs_of_pos (by norm_num)]; norm_num)
    (by rw [abs_lt]; constructor <;> norm_num)]
  norm_num
theorem fl_lit_15 : fl (101841399573604811 / 288230376151711744) = 6365087473350301 / 18014398509481984 := by
  rw [fl_eq_of (101841399573604811 / 288230376151711744) (-2) (6365087473350301) (by norm_num)
    (by rw [abs_of_pos (by norm_num)]; norm_num)
    (by rw [abs_of_pos (by norm_num)]; norm_num)
    (by rw [abs_lt]; constructor <;> norm_num)]
  norm_num
theorem fl_lit_16 : fl (9127295244804205 / 18014398509481984) = 2281823811201051 / 4503599627370496 := by
  rw [fl_eq_of_tie (9127295244804205 / 18014398509481984) (-1) (4563647622402102) (4563647622402102) (by norm_num)
    (by rw [abs_of_pos (by norm_num)]; norm_num)
    (by rw [abs_of_pos (by norm_num)]; norm_num)
    (by norm_num) (by decide)]
  norm_num
theorem fl_lit_17 : fl (1441151880758559 / 9007199254740992) = 1441151880758559 / 9007199254740992 := by
  rw [fl_eq_of (1441151880758559 / 9007199254740992) (-3) (5764607523034236) (by norm_num)
    (by rw [abs_of_pos (by norm_num)]; norm_num)
    (by rw [abs_of_pos (by norm_num)]; norm_num)
    (by rw [abs_lt]; constructor <;> norm_num)]
  norm_num
theorem fl_lit_18 : fl (15132094747964865 / 18014398509481984) = 236438980436951 / 281474976710656 := by
  rw [fl_eq_of_tie (15132094747964865 / 18014398509481984) (-1) (7566047373982432) (7566047373982432) (by norm_num)
    (by rw [abs_of_pos (by norm_num)]; norm_num)
    (by rw [abs_of_pos (by norm_num)]; norm_num)
    (by norm_num) (by decide)]
  norm_num
theorem fl_lit_19 : fl (9007199254740991 / 9007199254740992) = 9007199254740991 / 9007199254740992 := by
  rw [fl_eq_of (9007199254740991 / 9007199254740992) (-1) (9007199254740991) (by norm_num)
    (by rw [abs_of_pos (by norm_num)]; norm_num)
    (by rw [abs_of_pos (by norm_num)]; norm_num)
    (by rw [abs_lt]; constructor <;> norm_num)]
  norm_num
theorem fl_lit_20 : fl (6004799503160661 / 18014398509481982) = 3002399751580331 / 9007199254740992 := by
  rw [fl_eq_of (6004799503160661 / 18014398509481982) (-2) (6004799503160662) (by norm_num)
    (by rw [abs_of_pos (by norm_num)]; norm_num)
    (by rw [abs_of_pos (by norm_num)]; norm_num)
    (by rw [abs_lt]; constructor <;> norm_num)]
  norm_num
theorem fl_lit_21 : fl (4563647622402102 / 9007199254740991) = 4563647622402103 / 9007199254740992 := by
  rw [fl_eq_of (4563647622402102 / 9007199254740991) (-1) (4563647622402103) (by norm_num)
    (by rw [abs_of_pos (by norm_num)]; norm_num)
    (by rw [abs_of_pos (by norm_num)]; norm_num)
    (by rw [abs_lt]; constructor <;> norm_num)]
  norm_num
theorem fl_lit_22 : fl (1441151880758559 / 9007199254740991) = 5764607523034237 / 36028797018963968 := by
  rw [fl_eq_of (1441151880758559 / 9007199254740991) (-3) (5764607523034237) (by norm_num)
    (by rw [abs_of_pos (by norm_num)]; norm_num)
    (by rw [abs_of_pos (by norm_num)]; norm_num)
    (by rw [abs_lt]; constructor <;> norm_num)]
  norm_num
theorem fl_lit_23 : fl (49952259719863813 / 288230376151711744) = 6244032464982977 / 36028797018963968 := by
  rw [fl_eq_of (49952259719863813 / 288230376151711744) (-3) (6244032464982977) (by norm_num)
    (by rw [abs_of_pos (by norm_num)]; norm_num)
    (by rw [abs_of_pos (by norm_num)]; norm_num)
    (by rw [abs_lt]; constructor <;> norm_num)]
  norm_num
theorem fl_lit_24 : fl (20919965127049241 / 72057594037927936) = 2614995640881155 / 9007199254740992 := by
  rw [fl_eq_of (20919965127049241 / 72057594037927936) (-2) (5229991281762310) (by norm_num)
    (by rw [abs_of_pos (by norm_num)]; norm_num)
    (by rw [abs_of_pos (by norm_num)]; norm_num)
    (by rw [abs_lt]; constructor <;> norm_num)]
  norm_num
theorem fl_lit_25 : fl (-(2614995640881155 / 9007199254740992)) = (-(2614995640881155 / 9007199254740992)) := by
  rw [fl_eq_of (-(2614995640881155 / 9007199254740992)) (-2) (-5229991281762310) (by norm_num)
    (by rw [abs_of_neg (by norm_num)]; norm_num)
    (by rw [abs_of_neg (by norm_num)]; norm_num)
    (by rw [abs_lt]; constructor <;> norm_num)]
  norm_num
theorem fl_lit_26 : fl (180420786149014533 / 288230376151711744) = 176192173973647 / 281474976710656 := by
  rw [fl_eq_of (180420786149014533 / 288230376151711744) (-1) (5638149567156704) (by norm_num)
    (by rw [abs_of_pos (by norm_num)]; norm_num)
    (by rw [abs_of_pos (by norm_num)]; norm_num)
    (by rw [abs_lt]; constructor <;> norm_num)]
  norm_num
theorem fl_lit_27 : fl (-(1501199875790165 / 18014398509481984)) = (-(1501199875790165 / 18014398509481984)) := by
  rw [fl_eq_of (-(1501199875790165 / 18014398509481984)) (-4) (-6004799503160660) (by norm_num)
    (by rw [abs_of_neg (by norm_num)]; norm_num)
    (by rw [abs_of_neg (by norm_num)]; norm_num)
    (by rw [abs_lt]; constructor <;> norm_num)]
  norm_num
theorem fl_lit_28 : fl (-(3752999689475413 / 9007199254740992)) = (-(3752999689475413 / 9007199254740992)) := by
  rw [fl_eq_of (-(3752999689475413 / 9007199254740992)) (-2) (-7505999378950826) (by norm_num)
    (by rw [abs_of_neg (by norm_num)]; norm_num)
    (by rw [abs_of_neg (by norm_num)]; norm_num)
    (by rw [abs_lt]; constructor <;> norm_num)]
  norm_num
/-! ### attractiveness.js : WeightSplitterBar -/

theorem minGap_eq : minGap = 5764607523034235 / 288230376151711744 := by
  unfold minGap
  norm_num [fl_lit_1]

theorem cap_eq : fl (1 - minGap) = 2206763817411543 / 2251799813685248 := by
  rw [minGap_eq]
  norm_num [fl_lit_6]

theorem cutInvariant_constructor : CutInvariant WeightSplitterBar.constructor := by
  unfold CutInvariant WeightSplitterBar.constructor
  rw [cap_eq, minGap_eq]
  norm_num [fl_lit_2, fl_lit_3]

theorem cutInvariant_setCutPoint (s : WeightSplitterBar) (which : Handle) (x : ℚ)
    (h : CutInvariant s) : CutInvariant (s.setCutPoint which x) := by
  obtain ⟨h0, hA, hg, h1, hd⟩ := h
  have hgv := minGap_eq
  have hcap := cap_eq
  have hc0 : (0 : ℚ) ≤ min 1 (max 0 x) := le_min zero_le_one (le_max_left _ _)
  have hc1 : min 1 (max 0 x) ≤ (1 : ℚ) := min_le_left _ _
  cases which with
  | a =>
    simp only [WeightSplitterBar.setCutPoint, WeightSplitterBar.onPointerDown,
      WeightSplitterBar.onPointerMove, CutInvariant]
    have hle : min (fl (s.b - minGap)) (min 1 (max 0 x)) ≤ fl (s.b - minGap) := min_le_left _ _
    have hnn : 0 ≤ fl (s.b - minGap) := fl_nonneg (by linarith)
    have hm : fl (s.b - minGap) ≤ fl (1 - minGap) := fl_mono (by linarith)
    have he := fl_error_lt_one (s.b - minGap) (by rw [abs_lt]; constructor <;> linarith)
    rw [abs_le] at he
    refine ⟨le_min hnn hc0, le_trans hle hm, hg, h1, by linarith⟩
  | b =>
    simp only [WeightSplitterBar.setCutPoint, WeightSplitterBar.onPointerDown,
      WeightSplitterBar.onPointerMove, CutInvariant]
    have hge : fl (s.a + minGap) ≤ max (fl (s.a + minGap)) (min 1 (max 0 x)) := le_max_left _ _
    have hlo : minGap ≤ fl (s.a + minGap) := by
      have := fl_mono (show minGap ≤ s.a + minGap by linarith)
      rwa [show fl minGap = minGap by rw [hgv]; norm_num [fl_lit_4]] at this
    have hhi : fl (s.a + minGap) ≤ 1 := by
      have := fl_mono (show s.a + minGap ≤ fl (1 - minGap) + minGap by linarith)
      rwa [show fl (fl (1 - minGap) + minGap) = 1 by
        rw [hcap, hgv]; norm_num [fl_lit_7]] at this
    refine ⟨h0, hA, le_trans hlo hge, max_le hhi hc1, ?_⟩
    rcases lt_or_le (s.a + minGap) 1 with hlt | hle1
    · have he := fl_error_lt_one (s.a + minGap) (by rw [abs_lt]; constructor <;> linarith)
      rw [abs_le] at he
      linarith
    · have := fl_mono hle1
      rw [fl_lit_5] at this
      linarith

theorem cutInvariant_run (steps : List (Handle × ℚ)) :
    ∀ s : WeightSplitterBar, CutInvariant s → CutInvariant (s.run steps) := by
  induction steps with
  | nil => intro s h; exact h
  | cons p ps ih =>
    intro s h
    exact ih _ (cutInvariant_setCutPoint s p.1 p.2 h)

/-- C1 as stated fails: from the constructor state, dragging `'a'` to the double `0.12` and
then `'b'` to `0` leaves `b = 0.13999999999999999`, so that `b - a < 0.02`. -/
theorem C1_counterexample :
    ¬ ((WeightSplitterBar.constructor.run
          [(Handle.a, fl (12 / 100)), (Handle.b, 0)]).b -
        (WeightSplitterBar.constructor.run
          [(Handle.a, fl (12 / 100)), (Handle.b, 0)]).a ≥ 2 / 100) := by
  simp only [WeightSplitterBar.run, List.foldl, WeightSplitterBar.setCutPoint,
    WeightSplitterBar.onPointerDown, WeightSplitterBar.onPointerMove,
    WeightSplitterBar.constructor, minGap]
  norm_num [fl_lit_1, fl_lit_2, fl_lit_3, fl_lit_4, fl_lit_5, fl_lit_6, fl_lit_7, fl_lit_8, fl_lit_9, fl_lit_10, fl_lit_11, fl_lit_12, fl_lit_13, fl_lit_14, fl_lit_15, fl_lit_16, fl_lit_17, fl_lit_18, fl_lit_19, fl_lit_20, fl_lit_21, fl_lit_22, fl_lit_23, fl_lit_24, fl_lit_25, fl_lit_26, fl_lit_27, fl_lit_28, min_def, max_def]

/-- C1 (amended): starting from the constructor state, after every prefix of every finite
sequence of set-cut-point steps the state satisfies `0 ≤ a ≤ b ≤ 1` and
`b - a ≥ 0.02 - 2^(-54)`: the gap holds up to one rounding of a double in `[0, 1]`. -/
theorem C1_cut_point_invariant (steps : List (Handle × ℚ)) (k : ℕ) :
    0 ≤ (WeightSplitterBar.constructor.run (steps.take k)).a ∧
    (WeightSplitterBar.constructor.run (steps.take k)).a ≤
      (WeightSplitterBar.constructor.run (steps.take k)).b ∧
    (WeightSplitterBar.constructor.run (steps.take k)).b ≤ 1 ∧
    (WeightSplitterBar.constructor.run (steps.take k)).b -
      (WeightSplitterBar.constructor.run (steps.take k)).a ≥ 2 / 100 - 1 / 2 ^ 54 := by
  obtain ⟨h0, -, -, h1, hd⟩ := cutInvariant_run (steps.take k) _ cutInvariant_constructor
  rw [minGap_eq] at hd
  refine ⟨h0, ?_, h1, ?_⟩
  · have : (0 : ℚ) ≤ 5764607523034235 / 288230376151711744 - 1 / 2 ^ 54 := by norm_num
    linarith
  · have : (2 : ℚ) / 100 ≤ 5764607523034235 / 288230376151711744 := by norm_num
    linarith

theorem abs_fl (y : ℚ) : |fl y| = fl |y| := by
  rcases le_total 0 y with h | h
  · rw [abs_of_nonneg h, abs_of_nonneg (fl_nonneg h)]
  · have h' := fl_nonneg (neg_nonneg.2 h)
    rw [fl_neg] at h'
    rw [abs_of_nonpos h, abs_of_nonpos (by linarith), fl_neg]

/-- In a state with the cut invariant: the divisor of `getWeights` is within `4 * 2^(-53)` of
1, the weights are non-negative and their sum is within `7 * 2^(-53)` of 1. -/
theorem getWeights_of_invariant (s : WeightSplitterBar) (h : CutInvariant s) :
    fl (fl (s.a + fl (s.b - s.a)) + fl (1 - s.b)) ≠ 0 ∧
    0 ≤ s.getWeights.w1 ∧ 0 ≤ s.getWeights.w2 ∧ 0 ≤ s.getWeights.w3 ∧
    |s.getWeights.w1 + s.getWeights.w2 + s.getWeights.w3 - 1| ≤ 7 / 2 ^ 53 := by
  obtain ⟨h0, -, hg, h1, hd⟩ := h
  rw [minGap_eq] at hd hg
  have hab : s.a ≤ s.b := by
    have : (0 : ℚ) ≤ 5764607523034235 / 288230376151711744 - 1 / 2 ^ 54 := by norm_num
    linarith
  have hb0 : 0 ≤ s.b := le_trans h0 hab
  have n2 : 0 ≤ fl (s.b - s.a) := fl_nonneg (by linarith)
  have n3 : 0 ≤ fl (1 - s.b) := fl_nonneg (by linarith)
  have e2 := fl_error_lt_two (s.b - s.a) (by rw [abs_lt]; constructor <;> linarith)
  have e3 := fl_error_lt_two (1 - s.b) (by rw [abs_lt]; constructor <;> linarith)
  rw [abs_le] at e2 e3
  have nt : 0 ≤ fl (s.a + fl (s.b - s.a)) := fl_nonneg (by linarith)
  have et := fl_error_lt_two (s.a + fl (s.b - s.a)) (by
    rw [abs_lt]; constructor <;> norm_num at e2 ⊢ <;> linarith)
  rw [abs_le] at et
  have es := fl_error_lt_two (fl (s.a + fl (s.b - s.a)) + fl (1 - s.b)) (by
    rw [abs_lt]; constructor <;> norm_num at e2 e3 et ⊢ <;> linarith)
  rw [abs_le] at es
  generalize hS : fl (fl (s.a + fl (s.b - s.a)) + fl (1 - s.b)) = S at es
  generalize hT : fl (s.a + fl (s.b - s.a)) = T at et es nt hS
  generalize hW2 : fl (s.b - s.a) = w2 at e2 et n2 hT
  generalize hW3 : fl (1 - s.b) = w3 at e3 es n3 hS
  have hSlo : 1 - 4 / 2 ^ 53 ≤ S := by norm_num at e2 e3 et es ⊢; linarith
  have hShi : S ≤ 1 + 4 / 2 ^ 53 := by norm_num at e2 e3 et es ⊢; linarith
  have hSpos : 0 < S := by norm_num at hSlo; linarith
  have hw2 : w2 ≤ 1 + 1 / 2 ^ 53 := by norm_num at e2 ⊢; linarith
  have hw3 : w3 ≤ 1 + 1 / 2 ^ 53 := by norm_num at e3 ⊢; linarith
  have small : ∀ w : ℚ, 0 ≤ w → w ≤ 1 + 1 / 2 ^ 53 → |w / S| < 2 := by
    intro w hw0 hw1
    rw [abs_of_nonneg (div_nonneg hw0 hSpos.le), div_lt_iff₀ hSpos]
    norm_num at hSlo hw1 ⊢
    linarith
  have d1 := fl_error_lt_two (s.a / S) (small s.a h0 (by norm_num; linarith))
  have d2 := fl_error_lt_two (w2 / S) (small w2 n2 hw2)
  have d3 := fl_error_lt_two (w3 / S) (small w3 n3 hw3)
  rw [abs_le] at d1 d2 d3
  have hgw : s.getWeights = { w1 := fl (s.a / S), w2 := fl (w2 / S), w3 := fl (w3 / S) } := by
    simp only [WeightSplitterBar.getWeights, hW2, hW3, hT, hS]
  rw [hgw]
  refine ⟨hSpos.ne', fl_nonneg (div_nonneg h0 hSpos.le), fl_nonneg (div_nonneg n2 hSpos.le),
    fl_nonneg (div_nonneg n3 hSpos.le), ?_⟩
  have hq : s.a / S + w2 / S + w3 / S - 1 = (s.a + w2 + w3 - S) / S := by
    field_simp
  have hq1 : (s.a + w2 + w3 - S) / S ≤ 4 / 2 ^ 53 := by
    rw [div_le_iff₀ hSpos]
    norm_num at hSlo et es ⊢
    linarith
  have hq2 : -(4 / 2 ^ 53) ≤ (s.a + w2 + w3 - S) / S := by
    rw [le_div_iff₀ hSpos]
    norm_num at hSlo et es ⊢
    linarith
  rw [abs_le]
  dsimp only
  norm_num at d1 d2 d3 hq1 hq2 ⊢
  constructor <;> linarith

theorem getWeights_constructor :
    WeightSplitterBar.constructor.getWeights =
      { w1 := 6004799503160661 / 2 ^ 54, w2 := 6004799503160661 / 2 ^ 54,
        w3 := 6004799503160662 / 2 ^ 54 } := by
  simp only [WeightSplitterBar.getWeights, WeightSplitterBar.constructor]
  norm_num [fl_lit_1, fl_lit_2, fl_lit_3, fl_lit_4, fl_lit_5, fl_lit_6, fl_lit_7, fl_lit_8, fl_lit_9, fl_lit_10, fl_lit_11, fl_lit_12, fl_lit_13, fl_lit_14, fl_lit_15, fl_lit_16, fl_lit_17, fl_lit_18, fl_lit_19, fl_lit_20, fl_lit_21, fl_lit_22, fl_lit_23, fl_lit_24, fl_lit_25, fl_lit_26, fl_lit_27, fl_lit_28]

/-- C2 as stated fails: in the constructor state `getWeights()` returns
`w3 = 0.33333333333333337`, which is not `w1 = 0.3333333333333333`, and none of the three
is `1/3`; after dragging `'b'` to the double `0.84` the three weights returned do not sum
to 1. -/
theorem C2_counterexample :
    WeightSplitterBar.constructor.getWeights ≠ { w1 := 1 / 3, w2 := 1 / 3, w3 := 1 / 3 } ∧
    WeightSplitterBar.constructor.getWeights.w3 ≠ WeightSplitterBar.constructor.getWeights.w1 ∧
    (WeightSplitterBar.constructor.run [(Handle.b, fl (84 / 100))]).getWeights.w1 +
      (WeightSplitterBar.constructor.run [(Handle.b, fl (84 / 100))]).getWeights.w2 +
      (WeightSplitterBar.constructor.run [(Handle.b, fl (84 / 100))]).getWeights.w3 ≠ 1 := by
  refine ⟨?_, ?_, ?_⟩
  · rw [getWeights_constructor]
    intro h
    have := congrArg Weights.w1 h
    norm_num at this
  · rw [getWeights_constructor]
    norm_num
  · simp only [WeightSplitterBar.run, List.foldl, WeightSplitterBar.setCutPoint,
      WeightSplitterBar.onPointerDown, WeightSplitterBar.onPointerMove,
      WeightSplitterBar.constructor, minGap, WeightSplitterBar.getWeights]
    norm_num [fl_lit_1, fl_lit_2, fl_lit_3, fl_lit_4, fl_lit_5, fl_lit_6, fl_lit_7, fl_lit_8, fl_lit_9, fl_lit_10, fl_lit_11, fl_lit_12, fl_lit_13, fl_lit_14, fl_lit_15, fl_lit_16, fl_lit_17, fl_lit_18, fl_lit_19, fl_lit_20, fl_lit_21, fl_lit_22, fl_lit_23, fl_lit_24, fl_lit_25, fl_lit_26, fl_lit_27, fl_lit_28, min_def, max_def]

/-- C2 (amended): in every state reached from the constructor state by set-cut-point steps the
divisor `s` of `getWeights` is not zero, the three weights returned are non-negative and
their sum is within `10^(-15)` of 1; in the constructor state `getWeights` returns the doubles
`0.3333333333333333`, `0.3333333333333333`, `0.33333333333333337`, each within `10^(-16)`
of `1/3`. -/
theorem C2_getWeights_normalised (steps : List (Handle × ℚ)) :
    (fl (fl ((WeightSplitterBar.constructor.run steps).a +
          fl ((WeightSplitterBar.constructor.run steps).b -
            (WeightSplitterBar.constructor.run steps).a)) +
        fl (1 - (WeightSplitterBar.constructor.run steps).b)) ≠ 0 ∧
      0 ≤ (WeightSplitterBar.constructor.run steps).getWeights.w1 ∧
      0 ≤ (WeightSplitterBar.constructor.run steps).getWeights.w2 ∧
      0 ≤ (WeightSplitterBar.constructor.run steps).getWeights.w3 ∧
      |(WeightSplitterBar.constructor.run steps).getWeights.w1 +
        (WeightSplitterBar.constructor.run steps).getWeights.w2 +
        (WeightSplitterBar.constructor.run steps).getWeights.w3 - 1| ≤ 1 / 10 ^ 15) ∧
    WeightSplitterBar.constructor.getWeights =
      { w1 := 6004799503160661 / 2 ^ 54, w2 := 6004799503160661 / 2 ^ 54,
        w3 := 6004799503160662 / 2 ^ 54 } ∧
    |WeightSplitterBar.constructor.getWeights.w1 - 1 / 3| ≤ 1 / 10 ^ 16 ∧
    |WeightSplitterBar.constructor.getWeights.w2 - 1 / 3| ≤ 1 / 10 ^ 16 ∧
    |WeightSplitterBar.constructor.getWeights.w3 - 1 / 3| ≤ 1 / 10 ^ 16 := by
  obtain ⟨a1, a2, a3, a4, a5⟩ :=
    getWeights_of_invariant _ (cutInvariant_run steps _ cutInvariant_constructor)
  refine ⟨⟨a1, a2, a3, a4, le_trans a5 (by norm_num)⟩, getWeights_constructor, ?_, ?_, ?_⟩ <;>
    rw [getWeights_constructor, abs_le] <;> norm_num

theorem minGap_sub_abs : |minGap - 2 / 100| ≤ 1 / 2 ^ 60 := by
  rw [minGap_eq, abs_le]
  norm_num

/-- C3 as stated fails: in the reachable state `a = 0`, `b = 0.1933067152282768`, moving the
first cut point to `x = 1` stores `a = 0.17330671522827681`, the double nearest to
`b - 0.02`; it is not `b - 0.02` and leaves `b - a < 0.02`. -/
theorem C3_counterexample :
    ((WeightSplitterBar.constructor.run
        [(Handle.a, 0), (Handle.b, 435288025335141 / 2251799813685248)]).setCutPoint
          Handle.a 1).a ≠
      (WeightSplitterBar.constructor.run
        [(Handle.a, 0), (Handle.b, 435288025335141 / 2251799813685248)]).b - 2 / 100 ∧
    (WeightSplitterBar.constructor.run
        [(Handle.a, 0), (Handle.b, 435288025335141 / 2251799813685248)]).b -
      ((WeightSplitterBar.constructor.run
        [(Handle.a, 0), (Handle.b, 435288025335141 / 2251799813685248)]).setCutPoint
          Handle.a 1).a < 2 / 100 := by
  simp only [WeightSplitterBar.run, List.foldl, WeightSplitterBar.setCutPoint,
    WeightSplitterBar.onPointerDown, WeightSplitterBar.onPointerMove,
    WeightSplitterBar.constructor, minGap]
  norm_num [fl_lit_1, fl_lit_2, fl_lit_3, fl_lit_4, fl_lit_5, fl_lit_6, fl_lit_7, fl_lit_8, fl_lit_9, fl_lit_10, fl_lit_11, fl_lit_12, fl_lit_13, fl_lit_14, fl_lit_15, fl_lit_16, fl_lit_17, fl_lit_18, fl_lit_19, fl_lit_20, fl_lit_21, fl_lit_22, fl_lit_23, fl_lit_24, fl_lit_25, fl_lit_26, fl_lit_27, fl_lit_28, min_def, max_def]

/-- C3 (amended): for every state and position `x`, with `c = min(1, max(0, x))` and `gap` the
double `0.02`, moving the first cut point sets `a` to `min(fl(b - gap), c)` and keeps `b`;
moving the second sets `b` to `max(fl(a + gap), c)` and keeps `a`, where `fl` rounds to the
nearest double; when `c > fl(b - gap)` the first cut point becomes `fl(b - gap)`, which for
`0 ≤ b ≤ 1` is within `2^(-53)` of `b - 0.02`, and `fl(a + gap)` for `0 ≤ a ≤ 1` is within
`2^(-52)` of `a + 0.02`. -/
theorem C3_setCutPoint_result (s : WeightSplitterBar) (x : ℚ) :
    (s.setCutPoint Handle.a x).a = min (fl (s.b - fl (2 / 100))) (min 1 (max 0 x)) ∧
    (s.setCutPoint Handle.a x).b = s.b ∧
    (s.setCutPoint Handle.b x).b = max (fl (s.a + fl (2 / 100))) (min 1 (max 0 x)) ∧
    (s.setCutPoint Handle.b x).a = s.a ∧
    (min 1 (max 0 x) > fl (s.b - fl (2 / 100)) →
      (s.setCutPoint Handle.a x).a = fl (s.b - fl (2 / 100))) ∧
    (0 ≤ s.b → s.b ≤ 1 → |fl (s.b - fl (2 / 100)) - (s.b - 2 / 100)| ≤ 1 / 2 ^ 53) ∧
    (0 ≤ s.a → s.a ≤ 1 → |fl (s.a + fl (2 / 100)) - (s.a + 2 / 100)| ≤ 1 / 2 ^ 52) := by
  have hg := minGap_sub_abs
  have hgv := minGap_eq
  unfold minGap at hg hgv
  rw [abs_le] at hg
  refine ⟨rfl, rfl, rfl, rfl, fun h => ?_, fun h0 h1 => ?_, fun h0 h1 => ?_⟩
  · show min (fl (s.b - minGap)) (min 1 (max 0 x)) = fl (s.b - fl (2 / 100))
    exact min_eq_left (le_of_lt h)
  · have he := fl_error_lt_one (s.b - fl (2 / 100)) (by
      rw [hgv, abs_lt]; constructor <;> norm_num <;> linarith)
    rw [abs_le] at he ⊢
    norm_num at he hg ⊢
    constructor <;> linarith
  · have he := fl_error_lt_two (s.a + fl (2 / 100)) (by
      rw [hgv, abs_lt]; constructor <;> norm_num <;> linarith)
    rw [abs_le] at he ⊢
    norm_num at he hg ⊢
    constructor <;> linarith

theorem C3_setCutPoint_result_witness :
    (WeightSplitterBar.constructor.setCutPoint Handle.a (9 / 10)).a =
      fl (WeightSplitterBar.constructor.b - fl (2 / 100)) ∧
    |fl (WeightSplitterBar.constructor.b - fl (2 / 100)) -
      (WeightSplitterBar.constructor.b - 2 / 100)| ≤ 1 / 2 ^ 53 := by
  have h := C3_setCutPoint_result WeightSplitterBar.constructor (9 / 10)
  have hb : WeightSplitterBar.constructor.b = 6004799503160661 / 9007199254740992 := by
    simp only [WeightSplitterBar.constructor]
    norm_num [fl_lit_1, fl_lit_2, fl_lit_3, fl_lit_4, fl_lit_5, fl_lit_6, fl_lit_7, fl_lit_8, fl_lit_9, fl_lit_10, fl_lit_11, fl_lit_12, fl_lit_13, fl_lit_14, fl_lit_15, fl_lit_16, fl_lit_17, fl_lit_18, fl_lit_19, fl_lit_20, fl_lit_21, fl_lit_22, fl_lit_23, fl_lit_24, fl_lit_25, fl_lit_26, fl_lit_27, fl_lit_28]
  refine ⟨h.2.2.2.2.1 ?_, h.2.2.2.2.2.1 (by rw [hb]; norm_num) (by rw [hb]; norm_num)⟩
  rw [hb]
  norm_num [fl_lit_1, fl_lit_2, fl_lit_3, fl_lit_4, fl_lit_5, fl_lit_6, fl_lit_7, fl_lit_8, fl_lit_9, fl_lit_10, fl_lit_11, fl_lit_12, fl_lit_13, fl_lit_14, fl_lit_15, fl_lit_16, fl_lit_17, fl_lit_18, fl_lit_19, fl_lit_20, fl_lit_21, fl_lit_22, fl_lit_23, fl_lit_24, fl_lit_25, fl_lit_26, fl_lit_27, fl_lit_28, min_def, max_def]

/-- C4 as stated fails: in the reachable state `a = 0.0653146726136382`,
`b = 0.6459603465737733`, a click at `x = 0.35563750959370577` selects `'a'`, because the
two double differences are equal, although `|x - a| > |x - b|`. -/
theorem C4_counterexample :
    (WeightSplitterBar.constructor.run
        [(Handle.b, 1454573388062881 / 2251799813685248),
          (Handle.a, 4706418163913711 / 72057594037927936)]).nearestHandle
        (3203297911370369 / 9007199254740992) = Handle.a ∧
    ¬ |3203297911370369 / 9007199254740992 -
          (WeightSplitterBar.constructor.run
            [(Handle.b, 1454573388062881 / 2251799813685248),
              (Handle.a, 4706418163913711 / 72057594037927936)]).a| ≤
        |3203297911370369 / 9007199254740992 -
          (WeightSplitterBar.constructor.run
            [(Handle.b, 1454573388062881 / 2251799813685248),
              (Handle.a, 4706418163913711 / 72057594037927936)]).b| := by
  have hs : WeightSplitterBar.constructor.run
      [(Handle.b, 1454573388062881 / 2251799813685248),
        (Handle.a, 4706418163913711 / 72057594037927936)] =
      { a := 4706418163913711 / 72057594037927936, b := 1454573388062881 / 2251799813685248,
        dragging := some Handle.a } := by
    simp only [WeightSplitterBar.run, List.foldl, WeightSplitterBar.setCutPoint,
      WeightSplitterBar.onPointerDown, WeightSplitterBar.onPointerMove,
      WeightSplitterBar.constructor, minGap]
    norm_num [fl_lit_1, fl_lit_2, fl_lit_3, fl_lit_4, fl_lit_5, fl_lit_6, fl_lit_7, fl_lit_8, fl_lit_9, fl_lit_10, fl_lit_11, fl_lit_12, fl_lit_13, fl_lit_14, fl_lit_15, fl_lit_16, fl_lit_17, fl_lit_18, fl_lit_19, fl_lit_20, fl_lit_21, fl_lit_22, fl_lit_23, fl_lit_24, fl_lit_25, fl_lit_26, fl_lit_27, fl_lit_28, min_def, max_def]
  rw [hs]
  constructor
  · simp only [WeightSplitterBar.nearestHandle]
    norm_num [fl_lit_1, fl_lit_2, fl_lit_3, fl_lit_4, fl_lit_5, fl_lit_6, fl_lit_7, fl_lit_8, fl_lit_9, fl_lit_10, fl_lit_11, fl_lit_12, fl_lit_13, fl_lit_14, fl_lit_15, fl_lit_16, fl_lit_17, fl_lit_18, fl_lit_19, fl_lit_20, fl_lit_21, fl_lit_22, fl_lit_23, fl_lit_24, fl_lit_25, fl_lit_26, fl_lit_27, fl_lit_28, min_def, max_def, abs_of_pos, abs_of_neg]
  · norm_num [abs_of_pos, abs_of_neg]

/-- C4 (amended): for every state and every position `x` in `[0, 1]`, the click-on-bar handler
selects `'a'` if `|fl(x - a)| ≤ |fl(x - b)|` (the distances as doubles) and `'b'` otherwise,
and moves that handle to `x`.  It selects `'a'` whenever `|x - a| ≤ |x - b|`, ties included,
and `'b'` only when `b` is strictly nearer; when `a` and `b` lie in `[0, 1]` the selected cut
point is within `2^(-52)` of the minimal distance from `x`. -/
theorem C4_nearest_cut_point (s : WeightSplitterBar) (x : ℚ) (h0 : 0 ≤ x) (h1 : x ≤ 1) :
    (s.nearestHandle x = Handle.a ↔ |fl (x - s.a)| ≤ |fl (x - s.b)|) ∧
    (s.nearestHandle x = Handle.b ↔ ¬ |fl (x - s.a)| ≤ |fl (x - s.b)|) ∧
    (|x - s.a| ≤ |x - s.b| → s.nearestHandle x = Handle.a) ∧
    (s.nearestHandle x = Handle.b → |x - s.b| < |x - s.a|) ∧
    (0 ≤ s.a → s.a ≤ 1 → 0 ≤ s.b → s.b ≤ 1 →
      |x - s.cut (s.nearestHandle x)| ≤ |x - s.a| + 1 / 2 ^ 52 ∧
      |x - s.cut (s.nearestHandle x)| ≤ |x - s.b| + 1 / 2 ^ 52) ∧
    s.onBarPointerDown false x = (s.setCutPoint (s.nearestHandle x) x).onPointerUp := by
  have hx : min 1 (max 0 x) = x := by
    rw [max_eq_right h0, min_eq_right h1]
  have hn : s.nearestHandle x =
      if |fl (x - s.a)| ≤ |fl (x - s.b)| then Handle.a else Handle.b := by
    simp only [WeightSplitterBar.nearestHandle, hx]
  have hexact : |x - s.a| ≤ |x - s.b| → s.nearestHandle x = Handle.a := by
    intro h
    rw [hn, if_pos]
    rw [abs_fl, abs_fl]
    exact fl_mono h
  refine ⟨?_, ?_, hexact, ?_, ?_, rfl⟩
  · rw [hn]; split_ifs with h <;> simp [h]
  · rw [hn]; split_ifs with h <;> simp [h]
  · intro hb
    by_contra hc
    rw [hexact (not_lt.1 hc)] at hb
    cases hb
  · intro a0 a1 b0 b1
    have ea := fl_error_lt_two (x - s.a) (by rw [abs_lt]; constructor <;> linarith)
    have eb := fl_error_lt_two (x - s.b) (by rw [abs_lt]; constructor <;> linarith)
    have ta : |x - s.a| ≤ |fl (x - s.a)| + 1 / 2 ^ 53 := by
      have := abs_sub_abs_le_abs_sub (x - s.a) (fl (x - s.a))
      rw [abs_sub_comm (x - s.a) (fl (x - s.a))] at this
      linarith
    have tb : |x - s.b| ≤ |fl (x - s.b)| + 1 / 2 ^ 53 := by
      have := abs_sub_abs_le_abs_sub (x - s.b) (fl (x - s.b))
      rw [abs_sub_comm (x - s.b) (fl (x - s.b))] at this
      linarith
    have ua : |fl (x - s.a)| ≤ |x - s.a| + 1 / 2 ^ 53 := by
      have := abs_sub_abs_le_abs_sub (fl (x - s.a)) (x - s.a)
      linarith
    have ub : |fl (x - s.b)| ≤ |x - s.b| + 1 / 2 ^ 53 := by
      have := abs_sub_abs_le_abs_sub (fl (x - s.b)) (x - s.b)
      linarith
    have e52 : (1 : ℚ) / 2 ^ 53 + 1 / 2 ^ 53 = 1 / 2 ^ 52 := by norm_num
    have p52 : (0 : ℚ) ≤ 1 / 2 ^ 52 := by norm_num
    rw [hn]
    split_ifs with h
    · simp only [WeightSplitterBar.cut]
      constructor <;> linarith
    · simp only [WeightSplitterBar.cut]
      have h' := lt_of_not_le h
      constructor <;> linarith

theorem C4_nearest_cut_point_witness :
    WeightSplitterBar.constructor.nearestHandle (1 / 4) = Handle.a := by
  have h := C4_nearest_cut_point WeightSplitterBar.constructor (1 / 4) (by norm_num)
    (by norm_num)
  refine h.2.2.1 ?_
  simp only [WeightSplitterBar.constructor]
  norm_num [fl_lit_1, fl_lit_2, fl_lit_3, fl_lit_4, fl_lit_5, fl_lit_6, fl_lit_7, fl_lit_8, fl_lit_9, fl_lit_10, fl_lit_11, fl_lit_12, fl_lit_13, fl_lit_14, fl_lit_15, fl_lit_16, fl_lit_17, fl_lit_18, fl_lit_19, fl_lit_20, fl_lit_21, fl_lit_22, fl_lit_23, fl_lit_24, fl_lit_25, fl_lit_26, fl_lit_27, fl_lit_28, abs_of_pos, abs_of_neg]
/-! ### heatmap.js : computeMinMax -/

theorem JsNumber.lt_self (a : JsNumber) : a.lt a = false := by
  cases a <;> simp [JsNumber.lt]

theorem JsNumber.not_lt_trans (a b c : JsNumber) (hb : b ≠ JsNumber.nan)
    (h1 : a.lt b = false) (h2 : b.lt c = false) : a.lt c = false := by
  cases a <;> cases b <;> cases c <;> simp_all [JsNumber.lt]
  linarith

theorem JsNumber.isNaN_eq_false_iff (n : JsNumber) : n.isNaN = false ↔ n ≠ JsNumber.nan := by
  cases n <;> simp [JsNumber.isNaN]

theorem JsValue.isValidSample_iff (v : JsValue) :
    v.isValidSample = true ↔ ∃ n, v = JsValue.number n ∧ n ≠ JsNumber.nan := by
  cases v with
  | number n => cases n <;> simp [JsValue.isValidSample, JsNumber.isNaN]
  | _ => simp [JsValue.isValidSample]

theorem computeMinMaxStep_of_not_valid (acc : JsNumber × JsNumber) (v : JsValue)
    (h : v.isValidSample = false) : computeMinMaxStep acc v = acc := by
  cases v with
  | number n =>
    cases n <;> simp_all [JsValue.isValidSample, JsNumber.isNaN, computeMinMaxStep]
  | _ => rfl

theorem JsNumber.lt_asymm (a b : JsNumber) (h : a.lt b = true) : b.lt a = false := by
  cases a <;> cases b <;> simp_all [JsNumber.lt]
  exact le_of_lt h

/-- One loop iteration on a numeric non-`NaN` entry `m`: the new pair has no `NaN`, each
component is the old one or `m`, and the new pair bounds the old pair and `m`. -/
theorem computeMinMaxStep_number (acc : JsNumber × JsNumber) (m : JsNumber)
    (h1 : acc.1 ≠ JsNumber.nan) (h2 : acc.2 ≠ JsNumber.nan) (hm : m ≠ JsNumber.nan) :
    (computeMinMaxStep acc (JsValue.number m)).1 ≠ JsNumber.nan ∧
    (computeMinMaxStep acc (JsValue.number m)).2 ≠ JsNumber.nan ∧
    ((computeMinMaxStep acc (JsValue.number m)).1 = acc.1 ∨
      (computeMinMaxStep acc (JsValue.number m)).1 = m) ∧
    ((computeMinMaxStep acc (JsValue.number m)).2 = acc.2 ∨
      (computeMinMaxStep acc (JsValue.number m)).2 = m) ∧
    acc.1.lt (computeMinMaxStep acc (JsValue.number m)).1 = false ∧
    (computeMinMaxStep acc (JsValue.number m)).2.lt acc.2 = false ∧
    m.lt (computeMinMaxStep acc (JsValue.number m)).1 = false ∧
    (computeMinMaxStep acc (JsValue.number m)).2.lt m = false := by
  have hm' : m.isNaN = false := (JsNumber.isNaN_eq_false_iff m).2 hm
  have hstep : computeMinMaxStep acc (JsValue.number m) =
      (if m.lt acc.1 then m else acc.1, if acc.2.lt m then m else acc.2) := by
    simp [computeMinMaxStep, hm', JsNumber.gt]
  rw [hstep]
  dsimp only
  by_cases ha : m.lt acc.1 = true <;> by_cases hb : acc.2.lt m = true
  · rw [if_pos ha, if_pos hb]
    exact ⟨hm, hm, Or.inr rfl, Or.inr rfl, JsNumber.lt_asymm _ _ ha,
      JsNumber.lt_asymm _ _ hb, JsNumber.lt_self _, JsNumber.lt_self _⟩
  · have hb' : acc.2.lt m = false := by simpa using hb
    rw [if_pos ha, if_neg hb]
    exact ⟨hm, h2, Or.inr rfl, Or.inl rfl, JsNumber.lt_asymm _ _ ha,
      JsNumber.lt_self _, JsNumber.lt_self _, hb'⟩
  · have ha' : m.lt acc.1 = false := by simpa using ha
    rw [if_neg ha, if_pos hb]
    exact ⟨h1, hm, Or.inl rfl, Or.inr rfl, JsNumber.lt_self _,
      JsNumber.lt_asymm _ _ hb, ha', JsNumber.lt_self _⟩
  · have ha' : m.lt acc.1 = false := by simpa using ha
    have hb' : acc.2.lt m = false := by simpa using hb
    rw [if_neg ha, if_neg hb]
    exact ⟨h1, h2, Or.inl rfl, Or.inl rfl, JsNumber.lt_self _,
      JsNumber.lt_self _, ha', hb'⟩

/-- The loop of `computeMinMax` started from a pair without `NaN`: the final pair has no
`NaN`, each component is the initial one or an entry, and the pair bounds the initial pair
and every numeric non-`NaN` entry. -/
theorem foldl_computeMinMaxStep_spec (values : List JsValue) :
    ∀ acc : JsNumber × JsNumber, acc.1 ≠ JsNumber.nan → acc.2 ≠ JsNumber.nan →
      (values.foldl computeMinMaxStep acc).1 ≠ JsNumber.nan ∧
      (values.foldl computeMinMaxStep acc).2 ≠ JsNumber.nan ∧
      ((values.foldl computeMinMaxStep acc).1 = acc.1 ∨
        JsValue.number (values.foldl computeMinMaxStep acc).1 ∈ values) ∧
      ((values.foldl computeMinMaxStep acc).2 = acc.2 ∨
        JsValue.number (values.foldl computeMinMaxStep acc).2 ∈ values) ∧
      acc.1.lt (values.foldl computeMinMaxStep acc).1 = false ∧
      (values.foldl computeMinMaxStep acc).2.lt acc.2 = false ∧
      ∀ n, JsValue.number n ∈ values → n ≠ JsNumber.nan →
        n.lt (values.foldl computeMinMaxStep acc).1 = false ∧
        (values.foldl computeMinMaxStep acc).2.lt n = false := by
  induction values with
  | nil =>
    intro acc h1 h2
    simp [JsNumber.lt_self, h1, h2]
  | cons v vs ih =>
    intro acc h1 h2
    rw [List.foldl_cons]
    by_cases hv : v.isValidSample = true
    · obtain ⟨m, rfl, hm⟩ := (JsValue.isValidSample_iff v).1 hv
      obtain ⟨hA1, hA2, hB1, hB2, hC1, hC2, hD1, hD2⟩ :=
        computeMinMaxStep_number acc m h1 h2 hm
      obtain ⟨i1, i2, i3, i4, i5, i6, i7⟩ := ih _ hA1 hA2
      refine ⟨i1, i2, ?_, ?_, ?_, ?_, ?_⟩
      · rcases i3 with h | h
        · rcases hB1 with h' | h'
          · exact Or.inl (h.trans h')
          · exact Or.inr (by rw [h, h']; exact List.mem_cons_self _ _)
        · exact Or.inr (List.mem_cons_of_mem _ h)
      · rcases i4 with h | h
        · rcases hB2 with h' | h'
          · exact Or.inl (h.trans h')
          · exact Or.inr (by rw [h, h']; exact List.mem_cons_self _ _)
        · exact Or.inr (List.mem_cons_of_mem _ h)
      · exact JsNumber.not_lt_trans _ _ _ hA1 hC1 i5
      · exact JsNumber.not_lt_trans _ _ _ hA2 i6 hC2
      · intro n hn hnn
        rcases List.mem_cons.1 hn with h | h
        · have hnm : n = m := by injection h
          subst hnm
          exact ⟨JsNumber.not_lt_trans _ _ _ hA1 hD1 i5, JsNumber.not_lt_trans _ _ _ hA2 i6 hD2⟩
        · exact i7 n h hnn
    · have hv' : v.isValidSample = false := by simpa using hv
      rw [computeMinMaxStep_of_not_valid acc v hv']
      obtain ⟨i1, i2, i3, i4, i5, i6, i7⟩ := ih acc h1 h2
      refine ⟨i1, i2, ?_, ?_, i5, i6, ?_⟩
      · exact i3.imp id (List.mem_cons_of_mem _)
      · exact i4.imp id (List.mem_cons_of_mem _)
      · intro n hn hnn
        rcases List.mem_cons.1 hn with h | h
        · exfalso
          rw [← h] at hv'
          simp [JsValue.isValidSample, (JsNumber.isNaN_eq_false_iff n).2 hnn] at hv'
        · exact i7 n h hnn

theorem computeMinMax_some (values : List JsValue) (r : MinMax)
    (h : computeMinMax values = some r) :
    ∃ lo hi : ℚ, r.min = JsNumber.fin lo ∧ r.max = JsNumber.fin hi ∧
      JsValue.number (JsNumber.fin lo) ∈ values ∧ JsValue.number (JsNumber.fin hi) ∈ values ∧
      ∀ n, JsValue.number n ∈ values → n ≠ JsNumber.nan →
        ∃ q : ℚ, n = JsNumber.fin q ∧ lo ≤ q ∧ q ≤ hi := by
  obtain ⟨-, -, i3, i4, -, -, i7⟩ := foldl_computeMinMaxStep_spec values
    (JsNumber.posInf, JsNumber.negInf) (by simp) (by simp)
  unfold computeMinMax at h
  generalize List.foldl computeMinMaxStep (JsNumber.posInf, JsNumber.negInf) values = acc
    at h i3 i4 i7
  obtain ⟨lo', hi'⟩ := acc
  cases lo' <;> cases hi' <;> simp [JsNumber.isFinite] at h
  rename_i lo hi
  subst h
  refine ⟨lo, hi, rfl, rfl, ?_, ?_, ?_⟩
  · simpa using i3
  · simpa using i4
  · intro n hn hnn
    obtain ⟨a, b⟩ := i7 n hn hnn
    cases n with
    | nan => exact absurd rfl hnn
    | negInf => simp [JsNumber.lt] at a
    | posInf => simp [JsNumber.lt] at b
    | fin q =>
      simp only [JsNumber.lt, decide_eq_false_iff_not, not_lt] at a b
      exact ⟨q, rfl, a, b⟩

theorem computeMinMax_isSome (values : List JsValue)
    (hex : ∃ v ∈ values, v.isValidSample = true)
    (hfin : ∀ n, JsValue.number n ∈ values → n ≠ JsNumber.nan → n.isFinite = true) :
    ∃ r, computeMinMax values = some r := by
  obtain ⟨i1, i2, i3, i4, -, -, i7⟩ := foldl_computeMinMaxStep_spec values
    (JsNumber.posInf, JsNumber.negInf) (by simp) (by simp)
  obtain ⟨v, hv, hvv⟩ := hex
  obtain ⟨m, rfl, hm⟩ := (JsValue.isValidSample_iff v).1 hvv
  have hmf := hfin m hv hm
  obtain ⟨a, b⟩ := i7 m hv hm
  unfold computeMinMax
  generalize List.foldl computeMinMaxStep (JsNumber.posInf, JsNumber.negInf) values = acc
    at i1 i2 i3 i4 a b
  have h1 : acc.1.isFinite = true := by
    rcases i3 with h | h
    · rw [h] at a
      cases m <;> simp [JsNumber.lt, JsNumber.isFinite] at a hmf
    · exact hfin _ h i1
  have h2 : acc.2.isFinite = true := by
    rcases i4 with h | h
    · rw [h] at b
      cases m <;> simp [JsNumber.lt, JsNumber.isFinite] at b hmf
    · exact hfin _ h i2
  exact ⟨{ min := acc.1, max := acc.2 }, by simp [h1, h2]⟩

/-- C5 as stated fails: `[1, Infinity]` contains numbers other than `NaN`, yet
`computeMinMax` returns `null` for it. -/
theorem C5_counterexample :
    ¬ (computeMinMax [JsValue.number (JsNumber.fin 1), JsValue.number JsNumber.posInf] = none ↔
        ∀ v ∈ [JsValue.number (JsNumber.fin 1), JsValue.number JsNumber.posInf],
          v.isValidSample = false) := by
  decide

/-- C5 (amended): `computeMinMax(values)` returns `null` if and only if `values` contains no
entry that is a number other than `NaN`, or contains `Infinity` or `-Infinity`; so it returns
a `{min, max}` pair exactly when there is a numeric non-`NaN` entry and no infinite one.
`[]` and `[NaN, "x", null]` give `null`. -/
theorem C5_computeMinMax_null_iff (values : List JsValue) :
    (computeMinMax values = none ↔
      (∀ v ∈ values, v.isValidSample = false) ∨
        JsValue.number JsNumber.posInf ∈ values ∨ JsValue.number JsNumber.negInf ∈ values) ∧
    ((∃ r, computeMinMax values = some r) ↔
      (∃ v ∈ values, v.isValidSample = true) ∧
        JsValue.number JsNumber.posInf ∉ values ∧ JsValue.number JsNumber.negInf ∉ values) ∧
    computeMinMax [] = none ∧
    computeMinMax [JsValue.number JsNumber.nan, JsValue.string "x", JsValue.null] = none := by
  have key : (∃ r, computeMinMax values = some r) ↔
      (∃ v ∈ values, v.isValidSample = true) ∧
        JsValue.number JsNumber.posInf ∉ values ∧ JsValue.number JsNumber.negInf ∉ values := by
    constructor
    · rintro ⟨r, hr⟩
      obtain ⟨lo, hi, -, -, hlo, -, hall⟩ := computeMinMax_some values r hr
      refine ⟨⟨_, hlo, rfl⟩, ?_, ?_⟩
      · intro hmem
        obtain ⟨q, hq, -⟩ := hall _ hmem (by simp)
        cases hq
      · intro hmem
        obtain ⟨q, hq, -⟩ := hall _ hmem (by simp)
        cases hq
    · rintro ⟨hex, hp, hn⟩
      refine computeMinMax_isSome values hex ?_
      intro n hmem hnn
      cases n with
      | nan => exact absurd rfl hnn
      | negInf => exact absurd hmem hn
      | posInf => exact absurd hmem hp
      | fin q => rfl
  refine ⟨?_, key, by decide, by decide⟩
  rw [← Option.not_isSome_iff_eq_none, Option.isSome_iff_exists, key]
  constructor
  · intro h
    by_contra hc
    push_neg at hc
    obtain ⟨⟨v, hv, hvv⟩, hp, hn⟩ := hc
    exact h ⟨⟨v, hv, by simpa using hvv⟩, hp, hn⟩
  · rintro (h | h | h) ⟨⟨v, hv, hvv⟩, hp, hn⟩
    · rw [h v hv] at hvv; cases hvv
    · exact hp h
    · exact hn h

/-- C6: whenever `computeMinMax(values)` returns `{min, max}`, both are finite entries of
`values`, every numeric non-`NaN` entry `v` is finite with `min ≤ v ≤ max`, and the result is
the same as for the array with the non-numeric and `NaN` entries removed. -/
theorem C6_computeMinMax_bounds (values : List JsValue) (r : MinMax)
    (h : computeMinMax values = some r) :
    (∃ lo hi : ℚ, r.min = JsNumber.fin lo ∧ r.max = JsNumber.fin hi ∧
      JsValue.number (JsNumber.fin lo) ∈ values ∧ JsValue.number (JsNumber.fin hi) ∈ values ∧
      ∀ n, JsValue.number n ∈ values → n ≠ JsNumber.nan →
        ∃ q : ℚ, n = JsNumber.fin q ∧ lo ≤ q ∧ q ≤ hi) ∧
    computeMinMax (values.filter JsValue.isValidSample) = some r := by
  refine ⟨computeMinMax_some values r h, ?_⟩
  rw [← h]
  unfold computeMinMax
  have hf : ∀ (vs : List JsValue) (acc : JsNumber × JsNumber),
      (vs.filter JsValue.isValidSample).foldl computeMinMaxStep acc =
        vs.foldl computeMinMaxStep acc := by
    intro vs
    induction vs with
    | nil => intro acc; rfl
    | cons v vs ih =>
      intro acc
      by_cases hv : v.isValidSample = true
      · rw [List.filter_cons_of_pos hv, List.foldl_cons, List.foldl_cons, ih]
      · rw [List.filter_cons_of_neg hv, List.foldl_cons, ih,
          computeMinMaxStep_of_not_valid acc v (by simpa using hv)]
  rw [hf]

theorem C6_computeMinMax_bounds_witness :
    computeMinMax [JsValue.number (JsNumber.fin 1), JsValue.number (JsNumber.fin 5),
      JsValue.number (JsNumber.fin 3)] = some ⟨JsNumber.fin 1, JsNumber.fin 5⟩ ∧
    computeMinMax ([JsValue.number (JsNumber.fin 1), JsValue.number (JsNumber.fin 5),
      JsValue.number (JsNumber.fin 3)].filter JsValue.isValidSample) =
        some ⟨JsNumber.fin 1, JsNumber.fin 5⟩ :=
  ⟨by decide, (C6_computeMinMax_bounds _ ⟨JsNumber.fin 1, JsNumber.fin 5⟩ (by decide)).2⟩
/-! ### Roundings of the numbers that occur in the heatmap examples -/

theorem fl_heat_1 : fl 255 = 255 := by
  rw [fl_eq_of 255 (7) (8972014882652160) (by norm_num)
    (by rw [abs_of_pos (by norm_num)]; norm_num)
    (by rw [abs_of_pos (by norm_num)]; norm_num)
    (by rw [abs_lt]; constructor <;> norm_num)]
  norm_num
theorem fl_heat_2 : fl (1 / 2) = 1 / 2 := by
  rw [fl_eq_of (1 / 2) (-1) (4503599627370496) (by norm_num)
    (by rw [abs_of_pos (by norm_num)]; norm_num)
    (by rw [abs_of_pos (by norm_num)]; norm_num)
    (by rw [abs_lt]; constructor <;> norm_num)]
  norm_num
theorem fl_heat_3 : fl (255 / 2) = 255 / 2 := by
  rw [fl_eq_of (255 / 2) (6) (8972014882652160) (by norm_num)
    (by rw [abs_of_pos (by norm_num)]; norm_num)
    (by rw [abs_of_pos (by norm_num)]; norm_num)
    (by rw [abs_lt]; constructor <;> norm_num)]
  norm_num
theorem fl_heat_4 : fl 1 = 1 := by
  rw [fl_eq_of 1 (0) (4503599627370496) (by norm_num)
    (by rw [abs_of_pos (by norm_num)]; norm_num)
    (by rw [abs_of_pos (by norm_num)]; norm_num)
    (by rw [abs_lt]; constructor <;> norm_num)]
  norm_num
theorem fl_heat_5 : fl (1 / 10) = 3602879701896397 / 36028797018963968 := by
  rw [fl_eq_of (1 / 10) (-4) (7205759403792794) (by norm_num)
    (by rw [abs_of_pos (by norm_num)]; norm_num)
    (by rw [abs_of_pos (by norm_num)]; norm_num)
    (by rw [abs_lt]; constructor <;> norm_num)]
  norm_num
theorem fl_heat_6 : fl (32425917317067571 / 36028797018963968) = 8106479329266893 / 9007199254740992 := by
  rw [fl_eq_of (32425917317067571 / 36028797018963968) (-1) (8106479329266893) (by norm_num)
    (by rw [abs_of_pos (by norm_num)]; norm_num)
    (by rw [abs_of_pos (by norm_num)]; norm_num)
    (by rw [abs_lt]; constructor <;> norm_num)]
  norm_num
theorem fl_heat_7 : fl (2067152228963057715 / 9007199254740992) = 459 / 2 := by
  rw [fl_eq_of (2067152228963057715 / 9007199254740992) (7) (8074813394386944) (by norm_num)
    (by rw [abs_of_pos (by norm_num)]; norm_num)
    (by rw [abs_of_pos (by norm_num)]; norm_num)
    (by rw [abs_lt]; constructor <;> norm_num)]
  norm_num
theorem fl_heat_8 : fl 100000000000000001097906362944045541740492309677311846336810682903157585404911491537163328978494688899061249669721172515611590283743140088328307009198146046031271664502933027185697489699588559043338384466165001178426897626212945177628091195786707458122783970171784415105291802893207873272974885715430223118336 = 100000000000000001097906362944045541740492309677311846336810682903157585404911491537163328978494688899061249669721172515611590283743140088328307009198146046031271664502933027185697489699588559043338384466165001178426897626212945177628091195786707458122783970171784415105291802893207873272974885715430223118336 := by
  rw [fl_eq_of 100000000000000001097906362944045541740492309677311846336810682903157585404911491537163328978494688899061249669721172515611590283743140088328307009198146046031271664502933027185697489699588559043338384466165001178426897626212945177628091195786707458122783970171784415105291802893207873272974885715430223118336 (1023) (5010420900022432) (by norm_num)
    (by rw [abs_of_pos (by norm_num)]; norm_num)
    (by rw [abs_of_pos (by norm_num)]; norm_num)
    (by rw [abs_lt]; constructor <;> norm_num)]
  norm_num
theorem fl_heat_9 : fl 200000000000000002195812725888091083480984619354623692673621365806315170809822983074326657956989377798122499339442345031223180567486280176656614018396292092062543329005866054371394979399177118086676768932330002356853795252425890355256182391573414916245567940343568830210583605786415746545949771430860446236672 = 200000000000000002195812725888091083480984619354623692673621365806315170809822983074326657956989377798122499339442345031223180567486280176656614018396292092062543329005866054371394979399177118086676768932330002356853795252425890355256182391573414916245567940343568830210583605786415746545949771430860446236672 := by
  rw [fl_eq_of 200000000000000002195812725888091083480984619354623692673621365806315170809822983074326657956989377798122499339442345031223180567486280176656614018396292092062543329005866054371394979399177118086676768932330002356853795252425890355256182391573414916245567940343568830210583605786415746545949771430860446236672 (1024) (5010420900022432) (by norm_num)
    (by rw [abs_of_pos (by norm_num)]; norm_num)
    (by rw [abs_of_pos (by norm_num)]; norm_num)
    (by rw [abs_lt]; constructor <;> norm_num)]
  norm_num
theorem fl_heat_10 : fl 2 = 2 := by
  rw [fl_eq_of 2 (1) (4503599627370496) (by norm_num)
    (by rw [abs_of_pos (by norm_num)]; norm_num)
    (by rw [abs_of_pos (by norm_num)]; norm_num)
    (by rw [abs_lt]; constructor <;> norm_num)]
  norm_num
theorem fl_heat_11 : fl 4 = 4 := by
  rw [fl_eq_of 4 (2) (4503599627370496) (by norm_num)
    (by rw [abs_of_pos (by norm_num)]; norm_num)
    (by rw [abs_of_pos (by norm_num)]; norm_num)
    (by rw [abs_lt]; constructor <;> norm_num)]
  norm_num
theorem fl_heat_12 : fl 5 = 5 := by
  rw [fl_eq_of 5 (2) (5629499534213120) (by norm_num)
    (by rw [abs_of_pos (by norm_num)]; norm_num)
    (by rw [abs_of_pos (by norm_num)]; norm_num)
    (by rw [abs_lt]; constructor <;> norm_num)]
  norm_num
theorem fl_heat_13 : fl 3 = 3 := by
  rw [fl_eq_of 3 (1) (6755399441055744) (by norm_num)
    (by rw [abs_of_pos (by norm_num)]; norm_num)
    (by rw [abs_of_pos (by norm_num)]; norm_num)
    (by rw [abs_lt]; constructor <;> norm_num)]
  norm_num
/-! ### heatmap.js : norm and yellowToRed -/

theorem ofRat_eq_fin (q : ℚ) (h1 : 0 ≤ q) (h2 : fl q < 2 ^ 1024) :
    JsNumber.ofRat q = JsNumber.fin (fl q) := by
  have h0 := fl_nonneg h1
  unfold JsNumber.ofRat
  rw [if_neg (not_le.2 h2), if_neg]
  intro h
  have : (0 : ℚ) < 2 ^ 1024 := by positivity
  linarith

/-- A number fixed by `fl` is an integer multiple of `2^(-1074)`. -/
theorem exists_int_of_fl_eq (q : ℚ) (h : fl q = q) : ∃ k : ℤ, q = k * 2 ^ (-1074 : ℤ) := by
  have hE : -1074 ≤ ulpExp q := by unfold ulpExp; omega
  obtain ⟨n, hn⟩ : ∃ n : ℕ, ulpExp q = (n : ℤ) + -1074 := ⟨(ulpExp q + 1074).toNat, by omega⟩
  refine ⟨roundHalfEven (q / 2 ^ ulpExp q) * 2 ^ n, ?_⟩
  have e : (2 : ℚ) ^ ulpExp q = 2 ^ n * 2 ^ (-1074 : ℤ) := by
    rw [hn, zpow_add₀ (by norm_num : (2 : ℚ) ≠ 0), zpow_natCast]
  conv_lhs => rw [← h]
  unfold fl
  rw [e]
  push_cast
  ring

theorem fl_pos_of_ge (q : ℚ) (h : 2 ^ (-1074 : ℤ) ≤ q) : 0 < fl q := by
  have hq : 0 < q := lt_of_lt_of_le (two_zpow_pos _) h
  have hE : -1074 ≤ ulpExp q := by unfold ulpExp; omega
  rcases lt_or_eq_of_le hE with hlt | heq
  · exact lt_of_lt_of_le (two_zpow_pos _) (binade_le_fl q hq hlt)
  · have hp := two_zpow_pos (ulpExp q)
    have hm : ((1 : ℤ) : ℚ) ≤ q / 2 ^ ulpExp q := by
      rw [le_div_iff₀ hp, ← heq]
      push_cast
      linarith
    have hr := roundHalfEven_mono hm
    rw [roundHalfEven_intCast] at hr
    unfold fl
    have : (0 : ℚ) < (roundHalfEven (q / 2 ^ ulpExp q) : ℚ) := by exact_mod_cast hr
    positivity

/-- The double difference of two distinct doubles is not zero. -/
theorem fl_sub_pos (lo hi : ℚ) (hlo : IsDouble lo) (hhi : IsDouble hi) (h : lo < hi) :
    0 < fl (hi - lo) := by
  obtain ⟨k1, e1⟩ := exists_int_of_fl_eq lo hlo.1
  obtain ⟨k2, e2⟩ := exists_int_of_fl_eq hi hhi.1
  have hp := two_zpow_pos (-1074)
  apply fl_pos_of_ge
  have hk : k1 < k2 := by
    by_contra hc
    have : (k2 : ℚ) ≤ k1 := by exact_mod_cast not_lt.1 hc
    have := mul_le_mul_of_nonneg_right this hp.le
    rw [← e1, ← e2] at this
    linarith
  have hk' : (k1 : ℚ) + 1 ≤ k2 := by exact_mod_cast hk
  have := mul_le_mul_of_nonneg_right hk' hp.le
  rw [e1, e2]
  linarith

theorem strictEq_fin (p q : ℚ) : (JsNumber.fin p).strictEq (JsNumber.fin q) = decide (p = q) := by
  simp [JsNumber.strictEq]

theorem norm_of_doubles (v lo hi : ℚ) (hlo : IsDouble lo) (hhi : IsDouble hi)
    (h1 : lo ≤ v) (h2 : v ≤ hi) (hne : lo < hi) (hD : fl (hi - lo) < 2 ^ 1024) :
    norm (JsNumber.fin v) (JsNumber.fin lo) (JsNumber.fin hi) =
      JsNumber.fin (fl (fl (v - lo) / fl (hi - lo))) ∧
    0 ≤ fl (fl (v - lo) / fl (hi - lo)) ∧ fl (fl (v - lo) / fl (hi - lo)) ≤ 1 := by
  have hDpos := fl_sub_pos lo hi hlo hhi hne
  have hn0 : 0 ≤ fl (v - lo) := fl_nonneg (by linarith)
  have hnD : fl (v - lo) ≤ fl (hi - lo) := fl_mono (by linarith)
  have hq0 : 0 ≤ fl (v - lo) / fl (hi - lo) := div_nonneg hn0 hDpos.le
  have hq1 : fl (v - lo) / fl (hi - lo) ≤ 1 := (div_le_one hDpos).2 hnD
  have hr0 := fl_nonneg hq0
  have hr1 : fl (fl (v - lo) / fl (hi - lo)) ≤ 1 := by
    have := fl_mono hq1
    rwa [fl_heat_4] at this
  refine ⟨?_, hr0, hr1⟩
  unfold norm
  rw [strictEq_fin, decide_eq_false (ne_of_gt hne)]
  simp only [Bool.false_eq_true, if_false, JsNumber.sub, JsNumber.div]
  rw [ofRat_eq_fin (v - lo) (by linarith) (lt_of_le_of_lt hnD hD),
    ofRat_eq_fin (hi - lo) (by linarith) hD]
  simp only [JsNumber.div, if_neg hDpos.ne']
  rw [ofRat_eq_fin _ hq0 (lt_of_le_of_lt hr1 (by norm_num))]

theorem sub_fin_fin (p q : ℚ) :
    (JsNumber.fin p).sub (JsNumber.fin q) = JsNumber.ofRat (p - q) :=
  rfl

theorem fl_1e308 : fl (5010420900022432 * 2 ^ 971) = 5010420900022432 * 2 ^ 971 := by
  norm_num [fl_heat_1, fl_heat_2, fl_heat_3, fl_heat_4, fl_heat_5, fl_heat_6, fl_heat_7, fl_heat_8, fl_heat_9, fl_heat_10, fl_heat_11, fl_heat_12, fl_heat_13]

theorem ofRat_2e308 :
    JsNumber.ofRat (5010420900022432 * 2 ^ 971 - -(5010420900022432 * 2 ^ 971)) =
      JsNumber.posInf := by
  unfold JsNumber.ofRat
  rw [if_pos]
  norm_num [fl_heat_1, fl_heat_2, fl_heat_3, fl_heat_4, fl_heat_5, fl_heat_6, fl_heat_7, fl_heat_8, fl_heat_9, fl_heat_10, fl_heat_11, fl_heat_12, fl_heat_13]

/-- C7 as stated fails: for the doubles `min = -1e308`, `v = max = 1e308` both differences
overflow to `Infinity`, and `norm` returns `NaN`, which is neither 1 nor in `[0, 1]`. -/
theorem C7_counterexample :
    IsDouble (5010420900022432 * 2 ^ 971) ∧ IsDouble (-(5010420900022432 * 2 ^ 971)) ∧
    norm (JsNumber.fin (5010420900022432 * 2 ^ 971))
      (JsNumber.fin (-(5010420900022432 * 2 ^ 971)))
      (JsNumber.fin (5010420900022432 * 2 ^ 971)) = JsNumber.nan := by
  have hne : ¬ ((5010420900022432 * 2 ^ 971 : ℚ) = -(5010420900022432 * 2 ^ 971)) := by
    norm_num
  refine ⟨⟨fl_1e308, by rw [abs_of_pos (by norm_num)]; norm_num⟩,
    ⟨by rw [fl_neg, fl_1e308], by rw [abs_neg, abs_of_pos (by norm_num)]; norm_num⟩, ?_⟩
  unfold norm
  rw [strictEq_fin, decide_eq_false hne, if_neg Bool.false_ne_true, sub_fin_fin, ofRat_2e308]
  rfl

/-- C7 (amended): `norm(v, min, max)` returns 0 for every `v` when `max = min`, and otherwise
the double quotient of the double differences `v - min` and `max - min`.  For doubles
`min ≤ v ≤ max` whose difference `max - min` does not overflow, the result is a double in
`[0, 1]`, and `norm(max) = 1` when `min < max`; `norm(min) = 0` for all doubles `min ≤ max`. -/
theorem C7_norm (v lo hi : ℚ) :
    (∀ w : JsNumber, norm w (JsNumber.fin lo) (JsNumber.fin lo) = JsNumber.fin 0) ∧
    (hi ≠ lo → norm (JsNumber.fin v) (JsNumber.fin lo) (JsNumber.fin hi) =
      ((JsNumber.fin v).sub (JsNumber.fin lo)).div ((JsNumber.fin hi).sub (JsNumber.fin lo))) ∧
    (IsDouble lo → IsDouble hi → lo ≤ v → v ≤ hi → fl (hi - lo) < 2 ^ 1024 →
      ∃ r : ℚ, norm (JsNumber.fin v) (JsNumber.fin lo) (JsNumber.fin hi) = JsNumber.fin r ∧
        0 ≤ r ∧ r ≤ 1 ∧ (hi ≠ lo → r = fl (fl (v - lo) / fl (hi - lo)))) ∧
    (IsDouble lo → IsDouble hi → lo ≤ hi →
      norm (JsNumber.fin lo) (JsNumber.fin lo) (JsNumber.fin hi) = JsNumber.fin 0) ∧
    (IsDouble lo → IsDouble hi → lo < hi → fl (hi - lo) < 2 ^ 1024 →
      norm (JsNumber.fin hi) (JsNumber.fin lo) (JsNumber.fin hi) = JsNumber.fin 1) := by
  have hsame : ∀ w : JsNumber, norm w (JsNumber.fin lo) (JsNumber.fin lo) = JsNumber.fin 0 := by
    intro w
    unfold norm
    rw [strictEq_fin, decide_eq_true rfl, if_pos rfl]
  refine ⟨hsame, ?_, ?_, ?_, ?_⟩
  · intro h
    unfold norm
    rw [strictEq_fin, decide_eq_false h]
    simp
  · intro hlo hhi h1 h2 hD
    rcases lt_or_eq_of_le (le_trans h1 h2) with hlt | heq
    · obtain ⟨e, r0, r1⟩ := norm_of_doubles v lo hi hlo hhi h1 h2 hlt hD
      exact ⟨_, e, r0, r1, fun _ => rfl⟩
    · subst heq
      exact ⟨0, hsame _, le_refl _, zero_le_one, fun h => absurd rfl h⟩
  · intro hlo hhi hle
    rcases lt_or_eq_of_le hle with hlt | heq
    · have hDpos := fl_sub_pos lo hi hlo hhi hlt
      have h00 : JsNumber.ofRat (lo - lo) = JsNumber.fin 0 := by
        rw [sub_self, ofRat_eq_fin 0 (le_refl _) (by rw [fl_zero]; norm_num), fl_zero]
      unfold norm
      rw [strictEq_fin, decide_eq_false (ne_of_gt hlt)]
      simp only [Bool.false_eq_true, if_false, JsNumber.sub, h00]
      unfold JsNumber.ofRat
      split_ifs with c1 c2
      · rfl
      · exfalso
        have : (0 : ℚ) < 2 ^ 1024 := by positivity
        linarith
      · simp only [JsNumber.div, if_neg hDpos.ne', zero_div]
        rw [ofRat_eq_fin 0 (le_refl _) (by rw [fl_zero]; norm_num), fl_zero]
    · subst heq
      exact hsame _
  · intro hlo hhi hlt hD
    obtain ⟨e, -, -⟩ := norm_of_doubles hi lo hi hlo hhi hlt.le (le_refl _) hlt hD
    rw [e, div_self (fl_sub_pos lo hi hlo hhi hlt).ne', fl_heat_4]

theorem C7_norm_witness :
    norm (JsNumber.fin 5) (JsNumber.fin 1) (JsNumber.fin 5) = JsNumber.fin 1 ∧
    norm (JsNumber.fin 1) (JsNumber.fin 1) (JsNumber.fin 5) = JsNumber.fin 0 ∧
    ∃ r : ℚ, norm (JsNumber.fin 3) (JsNumber.fin 1) (JsNumber.fin 5) = JsNumber.fin r ∧
      0 ≤ r ∧ r ≤ 1 ∧ ((5 : ℚ) ≠ 1 → r = fl (fl (3 - 1) / fl (5 - 1))) := by
  have d1 : IsDouble 1 := ⟨fl_heat_4, by rw [abs_of_pos (by norm_num)]; norm_num⟩
  have d5 : IsDouble 5 := ⟨fl_heat_12, by rw [abs_of_pos (by norm_num)]; norm_num⟩
  have hD : fl (5 - 1) < 2 ^ 1024 := by norm_num [fl_heat_1, fl_heat_2, fl_heat_3, fl_heat_4, fl_heat_5, fl_heat_6, fl_heat_7, fl_heat_8, fl_heat_9, fl_heat_10, fl_heat_11, fl_heat_12, fl_heat_13]
  exact ⟨(C7_norm 5 1 5).2.2.2.2 d1 d5 (by norm_num) hD,
    (C7_norm 5 1 5).2.2.2.1 d1 d5 (by norm_num),
    (C7_norm 3 1 5).2.2.1 d1 d5 (by norm_num) (by norm_num) hD⟩

theorem clamp01_mem (t : ℚ) : 0 ≤ clamp01 t ∧ clamp01 t ≤ 1 :=
  ⟨le_min zero_le_one (le_max_left _ _), min_le_left _ _⟩

theorem clamp01_mono {t1 t2 : ℚ} (h : t1 ≤ t2) : clamp01 t1 ≤ clamp01 t2 :=
  min_le_min (le_refl _) (max_le_max (le_refl _) h)

theorem clamp01_of_nonpos {t : ℚ} (h : t ≤ 0) : clamp01 t = 0 := by
  unfold clamp01
  rw [max_eq_left h, min_eq_right zero_le_one]

theorem clamp01_of_one_le {t : ℚ} (h : 1 ≤ t) : clamp01 t = 1 := by
  unfold clamp01
  rw [max_eq_right (le_trans zero_le_one h), min_eq_left h]

theorem yellowToRedRgb_zero : yellowToRedRgb 0 = { r := 255, g := 255, b := 0 } := by
  simp only [yellowToRedRgb, clamp01_of_nonpos (le_refl (0 : ℚ)), mathRound]
  norm_num [fl_heat_1, fl_heat_2, fl_heat_3, fl_heat_4, fl_heat_5, fl_heat_6, fl_heat_7, fl_heat_8, fl_heat_9, fl_heat_10, fl_heat_11, fl_heat_12, fl_heat_13, Int.floor_eq_iff]

theorem yellowToRedRgb_one : yellowToRedRgb 1 = { r := 255, g := 0, b := 0 } := by
  simp only [yellowToRedRgb, clamp01_of_one_le (le_refl (1 : ℚ)), mathRound]
  norm_num [fl_zero, Int.floor_eq_iff]

theorem yellowToRedRgb_half : yellowToRedRgb (1 / 2) = { r := 255, g := 128, b := 0 } := by
  have h : clamp01 (1 / 2) = 1 / 2 := by
    unfold clamp01
    rw [max_eq_right (by norm_num), min_eq_right (by norm_num)]
  simp only [yellowToRedRgb, h, mathRound]
  norm_num [fl_heat_1, fl_heat_2, fl_heat_3, fl_heat_4, fl_heat_5, fl_heat_6, fl_heat_7, fl_heat_8, fl_heat_9, fl_heat_10, fl_heat_11, fl_heat_12, fl_heat_13, Int.floor_eq_iff]

/-- The double `255 * (1 - c)` computed by `yellowToRed` for `c` in `[0, 1]` lies in
`[0, 255]` and within `2^(-44)` of the exact product. -/
theorem green_double (c : ℚ) (h0 : 0 ≤ c) (h1 : c ≤ 1) :
    0 ≤ fl (255 * fl (1 - c)) ∧ fl (255 * fl (1 - c)) ≤ 255 ∧
    |fl (255 * fl (1 - c)) - 255 * (1 - c)| ≤ 1 / 2 ^ 44 := by
  have u0 : 0 ≤ fl (1 - c) := fl_nonneg (by linarith)
  have u1 : fl (1 - c) ≤ 1 := by
    have := fl_mono (show 1 - c ≤ 1 by linarith)
    rwa [fl_heat_4] at this
  have y0 : 0 ≤ fl (255 * fl (1 - c)) := fl_nonneg (by linarith)
  have y1 : fl (255 * fl (1 - c)) ≤ 255 := by
    have := fl_mono (show 255 * fl (1 - c) ≤ 255 by linarith)
    rwa [fl_heat_1] at this
  have eu := fl_error_lt_two (1 - c) (by rw [abs_lt]; constructor <;> linarith)
  have ey := fl_error (255 * fl (1 - c)) 8 (by norm_num) (by
    rw [abs_lt]; constructor <;> norm_num <;> linarith)
  rw [abs_le] at eu ey ⊢
  norm_num at eu ey ⊢
  refine ⟨y0, y1, ?_, ?_⟩ <;> linarith

/-- C8 as stated fails: at the double `t = 0.1` the code computes `255 * (1 - t)` as the
double `229.5` and returns green 230, while `255 * (1 - t)` is below `229.5` and rounds
to 229. -/
theorem C8_counterexample :
    (yellowToRedRgb (fl (1 / 10))).g = 230 ∧
    ⌊(255 * (1 - min 1 (max 0 (fl (1 / 10)))) + 1 / 2 : ℚ)⌋ = 229 := by
  have ht : fl (1 / 10) = 3602879701896397 / 36028797018963968 := fl_heat_5
  have hc : clamp01 (3602879701896397 / 36028797018963968) =
      3602879701896397 / 36028797018963968 := by
    unfold clamp01
    rw [max_eq_right (by norm_num), min_eq_right (by norm_num)]
  constructor
  · rw [ht]
    simp only [yellowToRedRgb, hc, mathRound]
    norm_num [fl_heat_1, fl_heat_2, fl_heat_3, fl_heat_4, fl_heat_5, fl_heat_6, fl_heat_7, fl_heat_8, fl_heat_9, fl_heat_10, fl_heat_11, fl_heat_12, fl_heat_13, Int.floor_eq_iff]
  · rw [ht, max_eq_right (by norm_num), min_eq_right (by norm_num)]
    norm_num [Int.floor_eq_iff]

/-- C8 (amended): for every `t`, `yellowToRed(t)` has channels `(255, g, 0)` where `g` is the
double `y = fl(255 * fl(1 - c))`, `c = min(1, max(0, t))`, rounded to the nearest integer
with halves rounded up; `y` is within `2^(-44)` of `255 * (1 - c)`.  `t = 0`, `1`, `0.5` give
`(255,255,0)`, `(255,0,0)`, `(255,128,0)`; every `t ≤ 0` gives the colour of `0` and every
`t ≥ 1` the colour of `1`. -/
theorem C8_yellowToRed (t : ℚ) :
    ((yellowToRedRgb t).r = 255 ∧ (yellowToRedRgb t).b = 0 ∧
      ((yellowToRedRgb t).g : ℚ) - 1 / 2 ≤ fl (255 * fl (1 - min 1 (max 0 t))) ∧
      fl (255 * fl (1 - min 1 (max 0 t))) < ((yellowToRedRgb t).g : ℚ) + 1 / 2 ∧
      |fl (255 * fl (1 - min 1 (max 0 t))) - 255 * (1 - min 1 (max 0 t))| ≤ 1 / 2 ^ 44) ∧
    yellowToRed t = "rgb(" ++ toString (255 : ℤ) ++ "," ++ toString (yellowToRedRgb t).g ++
      "," ++ toString (0 : ℤ) ++ ")" ∧
    (yellowToRedRgb 0 = { r := 255, g := 255, b := 0 } ∧ yellowToRed 0 = "rgb(255,255,0)") ∧
    (yellowToRedRgb 1 = { r := 255, g := 0, b := 0 } ∧ yellowToRed 1 = "rgb(255,0,0)") ∧
    (yellowToRedRgb (1 / 2) = { r := 255, g := 128, b := 0 } ∧
      yellowToRed (1 / 2) = "rgb(255,128,0)") ∧
    (t ≤ 0 → yellowToRedRgb t = yellowToRedRgb 0 ∧ yellowToRed t = yellowToRed 0) ∧
    (1 ≤ t → yellowToRedRgb t = yellowToRedRgb 1 ∧ yellowToRed t = yellowToRed 1) := by
  obtain ⟨c0, c1⟩ := clamp01_mem t
  refine ⟨⟨rfl, rfl, ?_, ?_, (green_double _ c0 c1).2.2⟩, rfl, ⟨yellowToRedRgb_zero, ?_⟩,
    ⟨yellowToRedRgb_one, ?_⟩, ⟨yellowToRedRgb_half, ?_⟩, ?_, ?_⟩
  · have h := Int.floor_le (fl (255 * fl (1 - min 1 (max 0 t))) + 1 / 2 : ℚ)
    show ((⌊(fl (255 * fl (1 - min 1 (max 0 t))) + 1 / 2 : ℚ)⌋ : ℤ) : ℚ) - 1 / 2 ≤ _
    linarith
  · have h := Int.lt_floor_add_one (fl (255 * fl (1 - min 1 (max 0 t))) + 1 / 2 : ℚ)
    show _ < ((⌊(fl (255 * fl (1 - min 1 (max 0 t))) + 1 / 2 : ℚ)⌋ : ℤ) : ℚ) + 1 / 2
    linarith
  · unfold yellowToRed; rw [yellowToRedRgb_zero]; rfl
  · unfold yellowToRed; rw [yellowToRedRgb_one]; rfl
  · unfold yellowToRed; rw [yellowToRedRgb_half]; rfl
  · intro h
    have e : yellowToRedRgb t = yellowToRedRgb 0 := by
      simp only [yellowToRedRgb, clamp01_of_nonpos h, clamp01_of_nonpos (le_refl (0 : ℚ))]
    exact ⟨e, by unfold yellowToRed; rw [e]⟩
  · intro h
    have e : yellowToRedRgb t = yellowToRedRgb 1 := by
      simp only [yellowToRedRgb, clamp01_of_one_le h, clamp01_of_one_le (le_refl (1 : ℚ))]
    exact ⟨e, by unfold yellowToRed; rw [e]⟩

theorem C8_yellowToRed_witness :
    yellowToRedRgb (-3) = { r := 255, g := 255, b := 0 } ∧
    yellowToRedRgb 7 = { r := 255, g := 0, b := 0 } :=
  ⟨((C8_yellowToRed (-3)).2.2.2.2.2.1 (by norm_num)).1.trans yellowToRedRgb_zero,
    ((C8_yellowToRed 7).2.2.2.2.2.2 (by norm_num)).1.trans yellowToRedRgb_one⟩

/-- C9: for `t1 ≤ t2` the green channel of `yellowToRed(t1)` is at least that of
`yellowToRed(t2)`; the green channel is an integer in `[0, 255]`, red is 255 and blue is 0. -/
theorem C9_yellowToRed_monotone (t1 t2 : ℚ) (h : t1 ≤ t2) :
    (yellowToRedRgb t2).g ≤ (yellowToRedRgb t1).g ∧
    (0 ≤ (yellowToRedRgb t1).g ∧ (yellowToRedRgb t1).g ≤ 255) ∧
    (yellowToRedRgb t1).r = 255 ∧ (yellowToRedRgb t1).b = 0 := by
  obtain ⟨c0, c1⟩ := clamp01_mem t1
  obtain ⟨y0, y1, -⟩ := green_double (clamp01 t1) c0 c1
  have hm := clamp01_mono h
  refine ⟨?_, ⟨?_, ?_⟩, rfl, rfl⟩
  · show ⌊(fl (255 * fl (1 - clamp01 t2)) + 1 / 2 : ℚ)⌋ ≤
      ⌊(fl (255 * fl (1 - clamp01 t1)) + 1 / 2 : ℚ)⌋
    have h1 : fl (1 - clamp01 t2) ≤ fl (1 - clamp01 t1) := fl_mono (by linarith)
    have h2 : fl (255 * fl (1 - clamp01 t2)) ≤ fl (255 * fl (1 - clamp01 t1)) :=
      fl_mono (by linarith)
    exact Int.floor_mono (by linarith)
  · show 0 ≤ ⌊(fl (255 * fl (1 - clamp01 t1)) + 1 / 2 : ℚ)⌋
    exact Int.floor_nonneg.2 (by linarith)
  · show ⌊(fl (255 * fl (1 - clamp01 t1)) + 1 / 2 : ℚ)⌋ ≤ 255
    have : ⌊(fl (255 * fl (1 - clamp01 t1)) + 1 / 2 : ℚ)⌋ < 255 + 1 := by
      rw [Int.floor_lt]
      push_cast
      linarith
    omega

theorem C9_yellowToRed_monotone_witness :
    (yellowToRedRgb 1).g ≤ (yellowToRedRgb (1 / 2)).g :=
  (C9_yellowToRed_monotone (1 / 2) 1 (by norm_num)).1

/-! ### attractiveness.js : toFixed and the request of compute -/

theorem digitChar_spec (d : ℕ) (h : d < 10) :
    (Nat.digitChar d).isDigit = true ∧ (Nat.digitChar d).toNat - 48 = d := by
  interval_cases d <;> decide

theorem foldl_digits (cs : List Char) : ∀ acc : ℕ,
    cs.foldl (fun acc c => 10 * acc + (c.toNat - 48)) acc = acc * 10 ^ cs.length + digitsNat cs := by
  induction cs with
  | nil => intro acc; simp [digitsNat]
  | cons c cs ih =>
    intro acc
    unfold digitsNat
    rw [List.foldl_cons, List.foldl_cons, ih, ih (10 * 0 + _), List.length_cons]
    ring

theorem digitsNat_cons (c : Char) (cs : List Char) :
    digitsNat (c :: cs) = (c.toNat - 48) * 10 ^ cs.length + digitsNat cs := by
  unfold digitsNat
  rw [List.foldl_cons, foldl_digits]
  simp [digitsNat]

theorem digitsNat_append (a b : List Char) :
    digitsNat (a ++ b) = digitsNat a * 10 ^ b.length + digitsNat b := by
  unfold digitsNat
  rw [List.foldl_append, foldl_digits]
  rfl

theorem toDigitsCore_spec (fuel : ℕ) : ∀ (n : ℕ) (ds : List Char), n < fuel →
    (∀ c ∈ ds, c.isDigit = true) →
    (∀ c ∈ Nat.toDigitsCore 10 fuel n ds, c.isDigit = true) ∧
    digitsNat (Nat.toDigitsCore 10 fuel n ds) = n * 10 ^ ds.length + digitsNat ds ∧
    Nat.toDigitsCore 10 fuel n ds ≠ [] := by
  induction fuel with
  | zero => intro n ds h; omega
  | succ fuel ih =>
    intro n ds hn hds
    have hd := digitChar_spec (n % 10) (Nat.mod_lt _ (by norm_num))
    have hds' : ∀ c ∈ Nat.digitChar (n % 10) :: ds, c.isDigit = true := by
      intro c hc
      rcases List.mem_cons.1 hc with h | h
      · rw [h]; exact hd.1
      · exact hds c h
    unfold Nat.toDigitsCore
    by_cases h0 : n / 10 = 0
    · simp only [h0, if_true]
      refine ⟨hds', ?_, by simp⟩
      rw [digitsNat_cons, hd.2]
      have : n % 10 = n := Nat.mod_eq_of_lt (by omega)
      rw [this]
    · simp only [h0, if_false]
      obtain ⟨i1, i2, i3⟩ := ih (n / 10) (Nat.digitChar (n % 10) :: ds) (by omega) hds'
      refine ⟨i1, ?_, i3⟩
      rw [i2, digitsNat_cons, hd.2, List.length_cons, pow_succ]
      have e : n * 10 ^ ds.length = (10 * (n / 10) + n % 10) * 10 ^ ds.length := by
        rw [Nat.div_add_mod]
      rw [e]
      ring

theorem toDigits_spec (n : ℕ) :
    (∀ c ∈ Nat.toDigits 10 n, c.isDigit = true) ∧ digitsNat (Nat.toDigits 10 n) = n ∧
    Nat.toDigits 10 n ≠ [] := by
  obtain ⟨h1, h2, h3⟩ := toDigitsCore_spec (n + 1) n [] (Nat.lt_succ_self n) (by simp)
  refine ⟨h1, ?_, h3⟩
  unfold Nat.toDigits
  rw [h2]
  simp [digitsNat]

theorem digitsNat_replicate_zero (k : ℕ) : digitsNat (List.replicate k '0') = 0 := by
  induction k with
  | zero => rfl
  | succ k ih =>
    rw [List.replicate_succ, digitsNat_cons, ih]
    have : '0'.toNat - 48 = 0 := by decide
    rw [this]
    simp

theorem toFixedDigits_spec (n f : ℕ) (hf : f ≠ 0) :
    ∃ a b : List Char, toFixedDigits n f = a ++ '.' :: b ∧ a ≠ [] ∧ b.length = f ∧
      (∀ c ∈ a, c.isDigit = true) ∧ (∀ c ∈ b, c.isDigit = true) ∧
      digitsNat a * 10 ^ f + digitsNat b = n := by
  obtain ⟨d1, d2, d3⟩ := toDigits_spec n
  have hm : ∃ m : List Char,
      (if f ≠ 0 ∧ (Nat.toDigits 10 n).length ≤ f then
        List.replicate (f + 1 - (Nat.toDigits 10 n).length) '0' ++ Nat.toDigits 10 n
       else Nat.toDigits 10 n) = m ∧
      (∀ c ∈ m, c.isDigit = true) ∧ digitsNat m = n ∧ f + 1 ≤ m.length := by
    by_cases hl : (Nat.toDigits 10 n).length ≤ f
    · refine ⟨_, if_pos ⟨hf, hl⟩, ?_, ?_, ?_⟩
      · intro c hc
        rcases List.mem_append.1 hc with h | h
        · rw [(List.mem_replicate.1 h).2]; decide
        · exact d1 c h
      · rw [digitsNat_append, digitsNat_replicate_zero, d2]; simp
      · rw [List.length_append, List.length_replicate]; omega
    · refine ⟨_, if_neg (fun h => hl h.2), d1, d2, by omega⟩
  obtain ⟨m, hm1, hm2, hm3, hm4⟩ := hm
  refine ⟨m.take (m.length - f), m.drop (m.length - f), ?_, ?_, ?_, ?_, ?_, ?_⟩
  · unfold toFixedDigits
    simp only [hm1, if_pos hf]
  · intro h
    have := congrArg List.length h
    rw [List.length_take] at this
    simp at this
    omega
  · rw [List.length_drop]; omega
  · intro c hc; exact hm2 c (List.mem_of_mem_take hc)
  · intro c hc; exact hm2 c (List.mem_of_mem_drop hc)
  · have hb : (m.drop (m.length - f)).length = f := by rw [List.length_drop]; omega
    have := digitsNat_append (m.take (m.length - f)) (m.drop (m.length - f))
    rw [List.take_append_drop, hb, hm3] at this
    exact this.symm

theorem decimalValue_of_parts (a b : List Char) (ha : a ≠ []) (hb : b ≠ [])
    (hda : ∀ c ∈ a, c.isDigit = true) (hdb : ∀ c ∈ b, c.isDigit = true) :
    decimalValue (String.mk (a ++ '.' :: b)) =
      some ((digitsNat a : ℚ) + (digitsNat b : ℚ) / 10 ^ b.length) := by
  have hne : ∀ c : Char, c.isDigit = true → c ≠ '-' ∧ (c != '.') = true := by
    intro c hc
    constructor
    · rintro rfl; exact absurd hc (by decide)
    · rw [bne_iff_ne]; rintro rfl; exact absurd hc (by decide)
  have hhead : ¬ ((a ++ '.' :: b).head? = some '-') := by
    cases a with
    | nil => exact absurd rfl ha
    | cons c cs =>
      simp only [List.cons_append, List.head?_cons, Option.some.injEq]
      exact (hne c (hda c (List.mem_cons_self _ _))).1
  have htake : (a ++ '.' :: b).takeWhile (fun c => c != '.') = a := by
    rw [List.takeWhile_append_of_pos (fun c hc => (hne c (hda c hc)).2)]
    simp
  have hdrop : (a ++ '.' :: b).dropWhile (fun c => c != '.') = '.' :: b := by
    rw [List.dropWhile_append_of_pos (fun c hc => (hne c (hda c hc)).2)]
    simp
  have hva : digitsValue a = some (digitsNat a) := by
    unfold digitsValue
    rw [if_pos ⟨ha, List.all_eq_true.2 hda⟩]
  have hvb : digitsValue b = some (digitsNat b) := by
    unfold digitsValue
    rw [if_pos ⟨hb, List.all_eq_true.2 hdb⟩]
  unfold decimalValue
  simp only [hhead, if_false, htake, hdrop, hva, hvb, Option.map_some', decide_False]

theorem toFixed_data_of_nonneg (x : ℚ) (f : ℕ) (hx : 0 ≤ x) :
    (toFixed x f).data = toFixedDigits ⌊x * 10 ^ f + 1 / 2⌋.toNat f := by
  unfold toFixed
  simp only [if_neg (not_lt.2 hx), String.data_append]
  rfl

theorem flatMap_escape_of_all (g : Char → List Char) (l : List Char)
    (h : ∀ c ∈ l, isUriUnreserved c = true) :
    l.flatMap (fun c => if isUriUnreserved c then [c] else g c) = l := by
  induction l with
  | nil => rfl
  | cons c cs ih =>
    rw [List.flatMap_cons, if_pos (h c (List.mem_cons_self _ _)),
      ih (fun d hd => h d (List.mem_cons_of_mem _ hd))]
    rfl

theorem isUriUnreserved_of_isDigit (c : Char) (h : c.isDigit = true) :
    isUriUnreserved c = true := by
  unfold isUriUnreserved Char.isAlphanum
  rw [h]
  simp

/-- The string `x.toFixed(f)` of a non-negative `x` with `f ≠ 0`: it is not changed by
`encodeURIComponent`, it denotes `n / 10^f` for `n = ⌊x * 10^f + 1/2⌋`, and that number is
within `1 / (2 * 10^f)` of `x`. -/
theorem toFixed_spec (x : ℚ) (f : ℕ) (hx : 0 ≤ x) (hf : f ≠ 0) :
    encodeURIComponent (toFixed x f) = toFixed x f ∧
    decimalValue (toFixed x f) = some ((⌊x * 10 ^ f + 1 / 2⌋ : ℚ) / 10 ^ f) ∧
    |(⌊x * 10 ^ f + 1 / 2⌋ : ℚ) / 10 ^ f - x| ≤ 1 / (2 * 10 ^ f) := by
  have hdata := toFixed_data_of_nonneg x f hx
  obtain ⟨a, b, hab, ha, hb, hda, hdb, hval⟩ :=
    toFixedDigits_spec ⌊x * 10 ^ f + 1 / 2⌋.toNat f hf
  have hfl : 0 ≤ ⌊x * 10 ^ f + 1 / 2⌋ :=
    Int.floor_nonneg.2 (by positivity)
  have hp : (0 : ℚ) < 10 ^ f := by positivity
  refine ⟨?_, ?_, ?_⟩
  · unfold encodeURIComponent
    rw [flatMap_escape_of_all]
    intro c hc
    rw [hdata, hab] at hc
    rcases List.mem_append.1 hc with h | h
    · exact isUriUnreserved_of_isDigit c (hda c h)
    · rcases List.mem_cons.1 h with h | h
      · rw [h]; decide
      · exact isUriUnreserved_of_isDigit c (hdb c h)
  · have hbne : b ≠ [] := by
      intro h
      rw [h] at hb
      exact hf hb.symm
    have e : toFixed x f = String.mk (a ++ '.' :: b) := by
      rw [← hab, ← hdata]
    rw [e, decimalValue_of_parts a b ha hbne hda hdb, hb]
    congr 1
    have hcast : ((⌊x * 10 ^ f + 1 / 2⌋.toNat : ℕ) : ℚ) = (⌊x * 10 ^ f + 1 / 2⌋ : ℚ) := by
      have := Int.toNat_of_nonneg hfl
      exact_mod_cast congrArg (fun z : ℤ => (z : ℚ)) this
    rw [← hcast, ← hval]
    push_cast
    field_simp
  · have h1 := Int.floor_le (x * 10 ^ f + 1 / 2)
    have h2 := Int.lt_floor_add_one (x * 10 ^ f + 1 / 2)
    rw [abs_le]
    constructor
    · rw [le_sub_iff_add_le, le_div_iff₀ hp]
      have : (-(1 / (2 * 10 ^ f)) + x) * 10 ^ f = x * 10 ^ f - 1 / 2 := by
        field_simp
        ring
      rw [this]
      linarith
    · rw [sub_le_iff_le_add, div_le_iff₀ hp]
      have : (1 / (2 * 10 ^ f) + x) * 10 ^ f = x * 10 ^ f + 1 / 2 := by
        field_simp
        ring
      rw [this]
      linarith

theorem toFixed_third : toFixed (6004799503160661 / 2 ^ 54) 4 = "0.3333" := by
  simp only [toFixed]
  norm_num [Int.floor_eq_iff]
  decide

theorem toFixed_third_up : toFixed (6004799503160662 / 2 ^ 54) 4 = "0.3333" := by
  simp only [toFixed]
  norm_num [Int.floor_eq_iff]
  decide

theorem decimalValue_third : decimalValue "0.3333" = some (3333 / 10000) := by
  simp [decimalValue, digitsValue, digitsNat, Char.isDigit]
  norm_num

/-- C10 as stated fails: in the constructor state `getWeights()` returns the double
`w1 = 0.3333333333333333`, while the `w1` parameter that `compute` reads from the input filled
by `render` is the string `0.3333`, which denotes `3333/10000`. -/
theorem C10_counterexample :
    (computeWeightParams WeightSplitterBar.constructor.render).w1 = "0.3333" ∧
    decimalValue (computeWeightParams WeightSplitterBar.constructor.render).w1 ≠
      some WeightSplitterBar.constructor.getWeights.w1 := by
  have h : (computeWeightParams WeightSplitterBar.constructor.render).w1 = "0.3333" := by
    simp only [computeWeightParams, WeightSplitterBar.render, Option.getD_some,
      getWeights_constructor, toFixed_third]
  refine ⟨h, ?_⟩
  rw [h, decimalValue_third, getWeights_constructor]
  norm_num

/-- C10 (amended): for every reachable splitter state and non-empty dates, the `w1`, `w2`,
`w3` query parameters of the `/api/station-scores/` request are the values returned by
`getWeights()` rounded to four decimal places by `toFixed(4)`: each is placed unescaped in the
URL, denotes `⌊w * 10^4 + 1/2⌋ / 10^4`, and differs from the weight `w` by at most `0.00005`. -/
theorem C10_weight_params (steps : List (Handle × ℚ)) (start endDate : String)
    (hs : start ≠ "") (he : endDate ≠ "") :
    computeWeightParams (WeightSplitterBar.constructor.run steps).render =
      { w1 := toFixed (WeightSplitterBar.constructor.run steps).getWeights.w1 4
        w2 := toFixed (WeightSplitterBar.constructor.run steps).getWeights.w2 4
        w3 := toFixed (WeightSplitterBar.constructor.run steps).getWeights.w3 4 } ∧
    compute start endDate (WeightSplitterBar.constructor.run steps).render =
      some ("/api/station-scores/?start_date=" ++ encodeURIComponent start
        ++ "&end_date=" ++ encodeURIComponent endDate
        ++ "&w1=" ++ toFixed (WeightSplitterBar.constructor.run steps).getWeights.w1 4
        ++ "&w2=" ++ toFixed (WeightSplitterBar.constructor.run steps).getWeights.w2 4
        ++ "&w3=" ++ toFixed (WeightSplitterBar.constructor.run steps).getWeights.w3 4) ∧
    ∀ w ∈ [(WeightSplitterBar.constructor.run steps).getWeights.w1,
        (WeightSplitterBar.constructor.run steps).getWeights.w2,
        (WeightSplitterBar.constructor.run steps).getWeights.w3],
      decimalValue (toFixed w 4) = some ((⌊w * 10 ^ 4 + 1 / 2⌋ : ℚ) / 10 ^ 4) ∧
      |(⌊w * 10 ^ 4 + 1 / 2⌋ : ℚ) / 10 ^ 4 - w| ≤ 5 / 100000 := by
  obtain ⟨-, p1, p2, p3, -⟩ :=
    getWeights_of_invariant _ (cutInvariant_run steps _ cutInvariant_constructor)
  have e1 := (toFixed_spec _ 4 p1 (by norm_num)).1
  have e2 := (toFixed_spec _ 4 p2 (by norm_num)).1
  have e3 := (toFixed_spec _ 4 p3 (by norm_num)).1
  refine ⟨rfl, ?_, ?_⟩
  · unfold compute
    rw [if_neg (by simp [hs, he])]
    simp only [computeWeightParams, WeightSplitterBar.render, Option.getD_some, e1, e2, e3]
  · intro w hw
    have hw0 : 0 ≤ w := by
      simp only [List.mem_cons, List.mem_singleton, List.not_mem_nil, or_false] at hw
      rcases hw with h | h | h <;> rw [h] <;> assumption
    obtain ⟨-, h2, h3⟩ := toFixed_spec w 4 hw0 (by norm_num)
    refine ⟨h2, le_trans h3 (by norm_num)⟩

theorem C10_weight_params_witness :
    compute "2024-01-01" "2024-01-07" WeightSplitterBar.constructor.render =
      some ("/api/station-scores/?start_date=2024-01-01&end_date=2024-01-07"
        ++ "&w1=0.3333&w2=0.3333&w3=0.3333") := by
  have h := (C10_weight_params [] "2024-01-01" "2024-01-07" (by decide) (by decide)).2.1
  have e1 : encodeURIComponent "2024-01-01" = "2024-01-01" := by decide
  have e2 : encodeURIComponent "2024-01-07" = "2024-01-07" := by decide
  simp only [WeightSplitterBar.run, List.foldl_nil, getWeights_constructor, toFixed_third,
    toFixed_third_up, e1, e2] at h
  rw [h]
  decide
/-! ### data-selector.js : DataSelector -/

theorem jsSlice_page {α : Type} (l : List α) (k i : ℕ) (hi : i * k < l.length) :
    jsSlice l ((i : ℤ) * (k : ℤ)) (min ((i : ℤ) * (k : ℤ) + (k : ℤ)) (l.length : ℤ)) =
      (l.drop (i * k)).take k := by
  have e : (i : ℤ) * (k : ℤ) = ((i * k : ℕ) : ℤ) := by push_cast; rfl
  rw [e]
  generalize i * k = a at hi
  unfold jsSlice
  have h1 : ¬ ((a : ℤ) < 0) := by omega
  have h2 : ¬ (min ((a : ℤ) + (k : ℤ)) (l.length : ℤ) < 0) := by omega
  simp only [if_neg h1, if_neg h2]
  have h3 : (min (a : ℤ) (l.length : ℤ)).toNat = a := by omega
  have h4 : (min (min ((a : ℤ) + (k : ℤ)) (l.length : ℤ)) (l.length : ℤ) -
      min (a : ℤ) (l.length : ℤ)).toNat = min k (l.length - a) := by omega
  rw [h3, h4, List.take_eq_take, List.length_drop]
  omega

theorem flatMap_pages {α : Type} (k : ℕ) : ∀ (T : ℕ) (l : List α), l.length ≤ T * k →
    (List.range T).flatMap (fun i => (l.drop (i * k)).take k) = l := by
  intro T
  induction T with
  | zero =>
    intro l h
    have : l = [] := List.length_eq_zero.1 (by omega)
    simp [this]
  | succ T ih =>
    intro l h
    rw [List.range_succ_eq_map, List.flatMap_cons, List.flatMap_map]
    have hd : (l.drop k).length ≤ T * k := by
      rw [List.length_drop]
      have : (T + 1) * k = T * k + k := by ring
      omega
    have := ih (l.drop k) hd
    simp only [List.drop_drop] at this
    have e : (fun i => List.take k (List.drop (Nat.succ i * k) l)) =
        (fun i => List.take k (List.drop (k + i * k) l)) := by
      funext i
      congr 2
      rw [Nat.succ_mul]; omega
    simp only [Function.comp_def, zero_mul, List.drop_zero] at *
    rw [e, this, List.take_append_drop]
theorem ceil_div_ten (n : ℕ) (hn : 0 < n) :
    ∃ T : ℕ, ⌈(n : ℚ) / 10⌉ = (T : ℤ) ∧ 1 ≤ T ∧ 10 * (T - 1) < n ∧ n ≤ 10 * T := by
  obtain ⟨T, hT⟩ : ∃ T : ℕ, T = (n + 9) / 10 := ⟨_, rfl⟩
  have h1 : 10 * T ≤ n + 9 := by omega
  have h2 : n ≤ 10 * T := by omega
  refine ⟨T, ?_, by omega, by omega, h2⟩
  have h1' : (10 : ℚ) * (T : ℚ) ≤ (n : ℚ) + 9 := by exact_mod_cast h1
  have h2' : (n : ℚ) ≤ 10 * (T : ℚ) := by exact_mod_cast h2
  rw [Int.ceil_eq_iff]
  push_cast
  constructor <;> linarith

theorem displayCurrentPage_of_ne_nil {α : Type} (s : DataSelector α) (h : s.allData ≠ []) :
    s.displayCurrentPage.totalPages = ⌈(s.allData.length : ℚ) / (s.rowsPerPage : ℚ)⌉ ∧
    s.displayCurrentPage.tableBody =
      jsSlice s.allData ((s.currentPage - 1) * (s.rowsPerPage : ℤ))
        (min ((s.currentPage - 1) * (s.rowsPerPage : ℤ) + (s.rowsPerPage : ℤ))
          (s.allData.length : ℤ)) := by
  have hl : ¬ s.allData.length = 0 := fun h0 => h (List.length_eq_zero.1 h0)
  unfold DataSelector.displayCurrentPage
  rw [if_neg hl]
  exact ⟨rfl, rfl⟩

/-- C11: for non-empty `allData` of length `n` and `rowsPerPage = 10`, `displayCurrentPage`
sets `totalPages = ⌈n / 10⌉` (the `T` with `10 * (T - 1) < n ≤ 10 * T`); for every page `p`
with `1 ≤ p ≤ totalPages` the rows shown are `allData[(p-1)*10 .. min(p*10, n))`, not empty and
at most 10; and the rows of the pages `1, ..., totalPages` in order make up `allData`. -/
theorem C11_pages_partition {α : Type} (s : DataSelector α) (hr : s.rowsPerPage = 10)
    (hne : s.allData ≠ []) :
    s.displayCurrentPage.totalPages = ⌈(s.allData.length : ℚ) / 10⌉ ∧
    (∃ T : ℕ, s.displayCurrentPage.totalPages = (T : ℤ) ∧
      10 * (T - 1) < s.allData.length ∧ s.allData.length ≤ 10 * T) ∧
    (∀ p : ℕ, 1 ≤ p → (p : ℤ) ≤ s.displayCurrentPage.totalPages →
      ({ s with currentPage := (p : ℤ) } : DataSelector α).displayCurrentPage.tableBody =
          (s.allData.drop ((p - 1) * 10)).take (min (p * 10) s.allData.length - (p - 1) * 10) ∧
        ({ s with currentPage := (p : ℤ) } : DataSelector α).displayCurrentPage.tableBody ≠ [] ∧
        ({ s with currentPage := (p : ℤ) } : DataSelector α).displayCurrentPage.tableBody.length
          ≤ 10) ∧
    (List.range s.displayCurrentPage.totalPages.toNat).flatMap
      (fun i => ({ s with currentPage := ((i + 1 : ℕ) : ℤ) } :
        DataSelector α).displayCurrentPage.tableBody) = s.allData := by
  have hn : 0 < s.allData.length := List.length_pos.2 hne
  obtain ⟨T, hT, hT1, hlo, hhi⟩ := ceil_div_ten s.allData.length hn
  have htot : s.displayCurrentPage.totalPages = (T : ℤ) := by
    rw [(displayCurrentPage_of_ne_nil s hne).1, hr]
    exact_mod_cast hT
  have hbody : ∀ i : ℕ, i * 10 < s.allData.length →
      ({ s with currentPage := ((i + 1 : ℕ) : ℤ) } : DataSelector α).displayCurrentPage.tableBody
        = (s.allData.drop (i * 10)).take 10 := by
    intro i hi
    rw [(displayCurrentPage_of_ne_nil
      ({ s with currentPage := ((i + 1 : ℕ) : ℤ) } : DataSelector α) hne).2]
    simp only [hr]
    have e : (((i + 1 : ℕ) : ℤ) - 1) = (i : ℤ) := by push_cast; ring
    rw [e]
    exact jsSlice_page s.allData 10 i hi
  refine ⟨?_, ⟨T, htot, hlo, hhi⟩, ?_, ?_⟩
  · rw [(displayCurrentPage_of_ne_nil s hne).1, hr]
    norm_num
  · intro p hp1 hpT
    rw [htot] at hpT
    have hpT' : p ≤ T := by exact_mod_cast hpT
    obtain ⟨i, rfl⟩ : ∃ i, p = i + 1 := ⟨p - 1, by omega⟩
    have hi : i * 10 < s.allData.length := by omega
    rw [hbody i hi]
    have hlen : ((s.allData.drop (i * 10)).take 10).length =
        min 10 (s.allData.length - i * 10) := by
      rw [List.length_take, List.length_drop]
    refine ⟨?_, ?_, ?_⟩
    · simp only [Nat.add_sub_cancel]
      rw [List.take_eq_take, List.length_drop]
      omega
    · intro h
      rw [h] at hlen
      simp only [List.length_nil] at hlen
      omega
    · rw [hlen]; omega
  · rw [htot, Int.toNat_natCast]
    have hfm := flatMap_pages 10 T s.allData (by omega)
    rw [← hfm]
    apply List.flatMap_congr
    intro i hi
    rw [List.mem_range] at hi
    rw [hfm]
    exact hbody i (by omega)

theorem C11_pages_partition_witness :
    (DataSelector.displayCurrentPage
      { allData := List.range 12, currentPage := 2, rowsPerPage := 10, totalPages := 0,
        tableBody := [] }).tableBody = [10, 11] := by
  have h := (C11_pages_partition
    { allData := List.range 12, currentPage := 1, rowsPerPage := 10, totalPages := 0,
      tableBody := [] } rfl (by decide)).2.2.1 2 (by decide) (by
        rw [(displayCurrentPage_of_ne_nil _ (by decide)).1]
        norm_num [Int.le_ceil_iff])
  exact h.1.trans (by decide)

theorem floor_days (ds de : ℤ) :
    ⌊((de * 86400000 - ds * 86400000 : ℤ) : ℚ) / (1000 * 60 * 60 * 24)⌋ = de - ds := by
  have e : ((de * 86400000 - ds * 86400000 : ℤ) : ℚ) / (1000 * 60 * 60 * 24) =
      ((de - ds : ℤ) : ℚ) := by
    push_cast
    ring
  rw [e, Int.floor_intCast]

theorem validateDateRange_ofDay (ds de : ℤ) :
    validateDateRange (DateValue.ofDay ds) (DateValue.ofDay de) =
      if ds > de then
        { ok := false, error := some "Start date must be before or equal to end date" }
      else if de - ds > 7 then
        { ok := false, error := some "Date range cannot exceed 7 days" }
      else { ok := true, error := none } := by
  have h0 : ¬ (DateValue.ofDay ds = DateValue.empty ∨ DateValue.ofDay de = DateValue.empty) := by
    simp [DateValue.ofDay]
  unfold validateDateRange
  rw [if_neg h0]
  simp only [DateValue.ofDay, DateValue.time, floor_days]
  by_cases h : ds > de
  · rw [if_pos h, if_pos (by omega)]
  · rw [if_neg h, if_neg (by omega)]

/-- C12: for start and end dates that are whole calendar days, `validateDateRange` returns
true if and only if `start ≤ end` and `end` is at most 7 days after `start`; it returns false
and shows an error when either date is empty, when `start > end`, and when the range exceeds
7 days. -/
theorem C12_validateDateRange (ds de : ℤ) :
    ((validateDateRange (DateValue.ofDay ds) (DateValue.ofDay de)).ok = true ↔
      ds ≤ de ∧ de ≤ ds + 7) ∧
    (∀ v : DateValue,
      validateDateRange DateValue.empty v =
          { ok := false, error := some "Please select both start and end dates" } ∧
        validateDateRange v DateValue.empty =
          { ok := false, error := some "Please select both start and end dates" }) ∧
    (ds > de → validateDateRange (DateValue.ofDay ds) (DateValue.ofDay de) =
      { ok := false, error := some "Start date must be before or equal to end date" }) ∧
    (ds ≤ de → ds + 7 < de → validateDateRange (DateValue.ofDay ds) (DateValue.ofDay de) =
      { ok := false, error := some "Date range cannot exceed 7 days" }) ∧
    (ds ≤ de → de ≤ ds + 7 → validateDateRange (DateValue.ofDay ds) (DateValue.ofDay de) =
      { ok := true, error := none }) := by
  refine ⟨?_, ?_, ?_, ?_, ?_⟩
  · rw [validateDateRange_ofDay]
    by_cases h : ds > de
    · rw [if_pos h]
      constructor
      · intro hc; cases hc
      · intro hc; omega
    · rw [if_neg h]
      by_cases h7 : de - ds > 7
      · rw [if_pos h7]
        constructor
        · intro hc; cases hc
        · intro hc; omega
      · rw [if_neg h7]
        exact ⟨fun _ => ⟨by omega, by omega⟩, fun _ => rfl⟩
  · intro v
    constructor
    · unfold validateDateRange
      rw [if_pos (Or.inl rfl)]
    · unfold validateDateRange
      rw [if_pos (Or.inr rfl)]
  · intro h
    rw [validateDateRange_ofDay, if_pos h]
  · intro h h7
    rw [validateDateRange_ofDay, if_neg (by omega), if_pos (by omega)]
  · intro h h7
    rw [validateDateRange_ofDay, if_neg (by omega), if_neg (by omega)]

theorem C12_validateDateRange_witness :
    validateDateRange (DateValue.ofDay 20089) (DateValue.ofDay 20096) =
        { ok := true, error := none } ∧
    validateDateRange (DateValue.ofDay 20089) (DateValue.ofDay 20097) =
        { ok := false, error := some "Date range cannot exceed 7 days" } ∧
    validateDateRange (DateValue.ofDay 20090) (DateValue.ofDay 20089) =
        { ok := false, error := some "Start date must be before or equal to end date" } :=
  ⟨(C12_validateDateRange 20089 20096).2.2.2.2 (by decide) (by decide),
    (C12_validateDateRange 20089 20097).2.2.2.1 (by decide) (by decide),
    (C12_validateDateRange 20090 20089).2.2.1 (by decide)⟩
end StopAttractiveness
